import Mathlib

/-!
# Appointment scheduling: the slot calendar of `pkg/appointment`

A shallow embedding of `pkg/appointment/appointment.go` and theorems about it, followed
by the three HTTP handlers of `pkg/handlers/handlers.go`.

Modelling conventions.

* A Go `time.Time` is modelled by `Time`, a count of nanoseconds of wall-clock time
  since midnight of a reference day. All times live in one zone: the source says
  "I am just treating everything like its pacific" and the specification lists
  multi-timezone handling as a non-goal. `Hour` and `Minute` are computed from the
  count the way the Go library computes them from its absolute seconds.
  The count is an unbounded `Int`: every time that can be parsed from a request or
  from the appointments file lies in years 0 to 9999, far from the limits of the
  Go representation.
* A Go `time.Duration` is an `Int` count of nanoseconds. `Time.Sub` saturates at the
  limits of a signed 64-bit count, as in Go.
* A Go `int` (ids, the id counter) is a 64-bit signed integer, modelled by an `Int`
  in the range -2^63 to 2^63 - 1; the increment `latestID++` wraps around, which
  `wrapInt64` expresses.
* The map `TrainerIDs map[int]bool` is only ever queried for key presence, so it is
  modelled by the finite set of its keys.
* A Go `error` is modelled by `Error`, one constructor per error kind; `Error.message`
  gives the text built by `fmt.Errorf`. A returned `error` that may be `nil` is an
  `Option Error`.
* `CreateAppointment` mutates its receiver: the model returns the state after the
  call together with the returned error.
* A handler ends with one call on its `echo.Context`; the model returns that call
  (`Reply`). What the call writes and returns belongs to the echo library and is given
  by `Reply.status` and `Reply.returned`.
-/

namespace appointment

/-! ## Time -/

/-- A point in time: nanoseconds of wall-clock time since midnight of day zero. -/
structure Time where
  nanos : Int
deriving DecidableEq, Repr

/-- The constant `time.Second`. -/
def Duration.Second : Int := 1000000000

/-- The constant `time.Minute`. -/
def Duration.Minute : Int := 60 * Duration.Second

/-- The step of the calendar, `30 * time.Minute`. -/
def thirtyMinutes : Int := 30 * Duration.Minute

/-- The smallest `time.Duration`. -/
def minDuration : Int := -9223372036854775808

/-- The largest `time.Duration`. -/
def maxDuration : Int := 9223372036854775807

/-- `t.Before(u)`: the instant `t` is strictly earlier than `u`. -/
def Time.Before (t u : Time) : Bool := decide (t.nanos < u.nanos)

/-- `t.After(u)`: the instant `t` is strictly later than `u`. -/
def Time.After (t u : Time) : Bool := decide (u.nanos < t.nanos)

/-- `t.Equal(u)`: the two values denote the same instant. -/
def Time.Equal (t u : Time) : Bool := decide (t.nanos = u.nanos)

/-- `t.Add(d)`. -/
def Time.Add (t : Time) (d : Int) : Time := ⟨t.nanos + d⟩

/-- `t.Sub(u)`: the difference of the instants, saturated to the range of `time.Duration`. -/
def Time.Sub (t u : Time) : Int :=
  let d := t.nanos - u.nanos
  if d < minDuration then minDuration
  else if maxDuration < d then maxDuration
  else d

/-- `t.Hour()`: the hour within the day, in the range 0 to 23. -/
def Time.Hour (t : Time) : Int := ((t.nanos / 1000000000) % 86400) / 3600

/-- `t.Minute()`: the minute offset within the hour, in the range 0 to 59. -/
def Time.Minute (t : Time) : Int := ((t.nanos / 1000000000) % 3600) / 60

/-- The time `hour:minute:second` of day `day`, a stand-in for `time.Date`. -/
def clock (day hour minute second : Int) : Time :=
  ⟨(((day * 24 + hour) * 60 + minute) * 60 + second) * 1000000000⟩

/-! ## Errors -/

/-- The errors returned by the calendar. `UnknownTrainer none` is
"trainer does not exist"; `UnknownTrainer (some id)` is "trainer id does not exist",
the variant built by `GetScheduledAppointments`. -/
inductive Error where
  | UnknownTrainer (trainerID : Option Int)
  | InvalidAlignment
  | InvalidOrder
  | OutOfHours
  | InvalidDuration
  | SlotTaken
deriving DecidableEq, Repr

/-- The text of the error, as built by `fmt.Errorf` in the source. -/
def Error.message : Error → String
  | .UnknownTrainer none => "trainer does not exist"
  | .UnknownTrainer (some trainerID) => s!"trainer {trainerID} does not exist"
  | .InvalidAlignment => "appointment times must start and end on the hour or half-hour"
  | .InvalidOrder => "start time must be before end time"
  | .OutOfHours => "appointment time must be between 8am and 5pm"
  | .InvalidDuration => "appointment duration must be exactly 30 minutes"
  | .SlotTaken => "appointment already exists at this time"

/-! ## Data model -/

/-- The struct `Appointment`. Absent `ID` and `UserID` are the zero value. -/
structure Appointment where
  ID : Int := 0
  StartTime : Time
  EndTime : Time
  UserID : Int := 0
  TrainerID : Int
deriving DecidableEq, Repr

/-- The struct `scheduledAppointments`: the calendar state. -/
structure scheduledAppointments where
  appointmentsList : List Appointment
  latestID : Int
  TrainerIDs : Finset Int

/-! ## Operations -/

/-- The value of a Go `int` (64 bits wide) that arithmetic on machine integers yields for
the mathematical result `n`: `n` wrapped into the range -2^63 to 2^63 - 1. -/
def wrapInt64 (n : Int) : Int :=
  (n + 9223372036854775808) % 18446744073709551616 - 9223372036854775808

/-- The loop of `NewAppointmentManager` over the decoded appointment records. -/
def NewAppointmentManager (decoded : List Appointment) : scheduledAppointments :=
  decoded.foldl
    (fun apps app =>
      { apps with
        latestID := if app.ID > apps.latestID then app.ID else apps.latestID
        TrainerIDs := insert app.TrainerID apps.TrainerIDs })
    { appointmentsList := decoded, latestID := 0, TrainerIDs := ∅ }

/-- The function `isValidTrainerID`: key presence in the trainer map. -/
def isValidTrainerID (trainerID : Int) (trainersList : Finset Int) : Bool :=
  if trainerID ∉ trainersList then false else true

/-- The function `validateStartAndEndTime`; `none` is the `nil` error. -/
def validateStartAndEndTime (startTime endTime : Time) : Option Error :=
  if startTime.Minute % 30 ≠ 0 ∨ endTime.Minute % 30 ≠ 0 then
    some .InvalidAlignment
  else if startTime.After endTime then
    some .InvalidOrder
  else if startTime.Hour < 8 ∨ startTime.Hour > 17 ∨ endTime.Hour < 8 ∨ endTime.Hour > 17 then
    some .OutOfHours
  else
    none

/-- The method `getRelevantAppointments`: the stored appointments of the requested
trainer that intersect the requested window, with the (always `nil`) error. -/
def scheduledAppointments.getRelevantAppointments (a : scheduledAppointments)
    (request : Appointment) : List Appointment × Option Error :=
  (a.appointmentsList.filter (fun scheduledApp =>
      decide (scheduledApp.TrainerID = request.TrainerID)
        && scheduledApp.StartTime.Before request.EndTime
        && scheduledApp.EndTime.After request.StartTime),
   none)

/-- The method `isSlotAvailable`: no listed appointment starts at instant `slot`. -/
def isSlotAvailable (slot : Time) : List Appointment → Bool
  | [] => true
  | scheduledApp :: rest =>
    if slot.Equal scheduledApp.StartTime then false else isSlotAvailable slot rest

/-- The slot that `GetAvailableAppointments` builds for the boundary `t`. -/
def slotAt (trainerID : Int) (t : Time) : Appointment :=
  { StartTime := t, EndTime := t.Add thirtyMinutes, TrainerID := trainerID }

/-- The `for` loop of `GetAvailableAppointments`, from the boundary `t` on, with the
slice built so far. -/
def availableLoop (trainerID : Int) (relevantAppointments : List Appointment)
    (endTime : Time) (t : Time) (availableAppointments : List Appointment) :
    List Appointment :=
  if t.Before endTime then
    availableLoop trainerID relevantAppointments endTime (t.Add thirtyMinutes)
      (if isSlotAvailable t relevantAppointments then
        availableAppointments ++ [slotAt trainerID t]
      else availableAppointments)
  else
    availableAppointments
termination_by (endTime.nanos - t.nanos).toNat
decreasing_by
  rename_i h
  have hlt : t.nanos < endTime.nanos := by simpa [Time.Before] using h
  simp only [Time.Add, thirtyMinutes, Duration.Minute, Duration.Second]
  omega

/-- The method `GetAvailableAppointments`. -/
def scheduledAppointments.GetAvailableAppointments (a : scheduledAppointments)
    (request : Appointment) : Except Error (List Appointment) :=
  if !isValidTrainerID request.TrainerID a.TrainerIDs then
    .error (.UnknownTrainer none)
  else
    match validateStartAndEndTime request.StartTime request.EndTime with
    | some err => .error err
    | none =>
      match a.getRelevantAppointments request with
      | (_, some err) => .error err
      | (relevantAppointments, none) =>
        .ok (availableLoop request.TrainerID relevantAppointments request.EndTime
              request.StartTime [])

/-- The method `GetScheduledAppointments`. -/
def scheduledAppointments.GetScheduledAppointments (a : scheduledAppointments)
    (trainerID : Int) : Except Error (List Appointment) :=
  if !isValidTrainerID trainerID a.TrainerIDs then
    .error (.UnknownTrainer (some trainerID))
  else
    .ok (a.appointmentsList.filter (fun app => decide (app.TrainerID = trainerID)))

/-- The method `CreateAppointment`: the state after the call and the returned error. -/
def scheduledAppointments.CreateAppointment (a : scheduledAppointments)
    (appointment : Appointment) : scheduledAppointments × Option Error :=
  if !isValidTrainerID appointment.TrainerID a.TrainerIDs then
    (a, some (.UnknownTrainer none))
  else
    match validateStartAndEndTime appointment.StartTime appointment.EndTime with
    | some err => (a, some err)
    | none =>
      if appointment.EndTime.Sub appointment.StartTime ≠ thirtyMinutes then
        (a, some .InvalidDuration)
      else
        match a.getRelevantAppointments appointment with
        | (_, some err) => (a, some err)
        | (relevantAppointments, none) =>
          if relevantAppointments.any
              (fun existingAppointment =>
                appointment.StartTime.Equal existingAppointment.StartTime) then
            (a, some .SlotTaken)
          else
            ({ a with
                latestID := wrapInt64 (a.latestID + 1)
                appointmentsList :=
                  a.appointmentsList ++ [{ appointment with ID := wrapInt64 (a.latestID + 1) }] },
             none)

/-! ## Specification-side definitions -/

/-- The number of boundaries `startTime + k * 30min` that lie strictly before `endTime`. -/
def stepCount (startTime endTime : Time) : Nat :=
  ((endTime.nanos - startTime.nanos + thirtyMinutes - 1) / thirtyMinutes).toNat

/-- The boundaries `startTime + k * 30min`, `k = 0, 1, 2, ...`, strictly before `endTime`,
in increasing order. -/
def boundaries (startTime endTime : Time) : List Time :=
  (List.range (stepCount startTime endTime)).map
    (fun (k : Nat) => startTime.Add ((k : Int) * thirtyMinutes))

/-- The half-open intervals `[StartTime, EndTime)` of two appointments intersect. -/
def overlaps (x y : Appointment) : Prop :=
  x.StartTime.nanos < y.EndTime.nanos ∧ y.StartTime.nanos < x.EndTime.nanos

instance : DecidableRel overlaps := fun x y => by
  unfold overlaps
  infer_instance

/-- No two appointments of the list (at different positions) belong to the same trainer
and overlap. -/
def noDoubleBooking (l : List Appointment) : Prop :=
  l.Pairwise (fun x y => x.TrainerID = y.TrainerID → ¬ overlaps x y)

instance : DecidablePred noDoubleBooking := fun l => by
  unfold noDoubleBooking
  infer_instance

/-- The time lies exactly on a half-hour boundary: `hh:00:00` or `hh:30:00`, with no
seconds and no fraction of a second. -/
def onHalfHour (t : Time) : Prop := t.nanos % thirtyMinutes = 0

instance : DecidablePred onHalfHour := fun t => by
  unfold onHalfHour
  infer_instance

/-! ## Example states -/

/-- A calendar in which trainer 1 has one booking, 09:00 to 09:30 of day zero. -/
def bookedNine : scheduledAppointments :=
  { appointmentsList :=
      [{ ID := 1, StartTime := clock 0 9 0 0, EndTime := clock 0 9 30 0, UserID := 1,
         TrainerID := 1 }]
    latestID := 1
    TrainerIDs := {1} }

/-- A calendar in which trainer 1 is known and nothing is booked. -/
def onlyTrainerOne : scheduledAppointments :=
  { appointmentsList := [], latestID := 0, TrainerIDs := {1} }

/-- A calendar whose only stored record, of trainer 1, starts and ends at 09:00 of day
zero: a record of length zero, as the appointments file may hold. -/
def zeroLengthNine : scheduledAppointments :=
  { appointmentsList :=
      [{ ID := 1, StartTime := clock 0 9 0 0, EndTime := clock 0 9 0 0, UserID := 1,
         TrainerID := 1 }]
    latestID := 1
    TrainerIDs := {1} }

/-- The booking request of trainer 1 for 09:00 to 09:30 of day zero, by user 2. -/
def nineToHalfPast : Appointment :=
  { StartTime := clock 0 9 0 0, EndTime := clock 0 9 30 0, UserID := 2, TrainerID := 1 }

/-- The state reached from `a` by calling `CreateAppointment` on each request of the list
in turn, whether the call succeeds or fails. -/
def bookAll (a : scheduledAppointments) : List Appointment → scheduledAppointments
  | [] => a
  | r :: rest => bookAll (a.CreateAppointment r).1 rest

/-- Records as the appointments file may hold them: one record of trainer 1 with a
negative id. -/
def negativeIdRecords : List Appointment :=
  [{ ID := -5, StartTime := clock 0 9 0 0, EndTime := clock 0 9 30 0, UserID := 1,
     TrainerID := 1 }]

/-- Records of two trainers: id 7 for trainer 2, then id 3 for trainer 1. -/
def twoTrainerRecords : List Appointment :=
  [{ ID := 7, StartTime := clock 0 9 0 0, EndTime := clock 0 9 30 0, UserID := 1,
     TrainerID := 2 },
   { ID := 3, StartTime := clock 0 10 0 0, EndTime := clock 0 10 30 0, UserID := 4,
     TrainerID := 1 }]

/-- The booking invariants of the data model for one stored appointment: the trainer is
known, the minutes of start and end are 0 or 30, the hours of start and end are within
8 to 17, and the end is 30 minutes after the start. -/
def wellFormedBooking (trainers : Finset Int) (x : Appointment) : Prop :=
  x.TrainerID ∈ trainers ∧
    (x.StartTime.Minute = 0 ∨ x.StartTime.Minute = 30) ∧
    (x.EndTime.Minute = 0 ∨ x.EndTime.Minute = 30) ∧
    (8 ≤ x.StartTime.Hour ∧ x.StartTime.Hour ≤ 17) ∧
    (8 ≤ x.EndTime.Hour ∧ x.EndTime.Hour ≤ 17) ∧
    x.EndTime = x.StartTime.Add thirtyMinutes

instance (trainers : Finset Int) : DecidablePred (wellFormedBooking trainers) := fun x => by
  unfold wellFormedBooking
  infer_instance

/-- The booking request of trainer 1 for 17:00 to 17:30 of day zero. -/
def fiveToHalfPastFive : Appointment :=
  { StartTime := clock 0 17 0 0, EndTime := clock 0 17 30 0, UserID := 2, TrainerID := 1 }

/-- The day on which a time falls: whole days since midnight of day zero. -/
def dayOf (t : Time) : Int := t.nanos / 86400000000000

/-- A calendar in which trainer 2 is known and the only stored appointment belongs to
trainer 1, 09:00 to 09:30 of day zero: the state of the test
`TestGetAvailableAppointments_Available_DifferentTrainer`. -/
def otherTrainerNine : scheduledAppointments :=
  { appointmentsList :=
      [{ StartTime := clock 0 9 0 0, EndTime := clock 0 9 30 0, UserID := 2, TrainerID := 1 }]
    latestID := 0
    TrainerIDs := {2} }

/-- A calendar in which trainer 2 is known and nothing is booked. -/
def onlyTrainerTwo : scheduledAppointments :=
  { appointmentsList := [], latestID := 0, TrainerIDs := {2} }

/-! ### The methods as programs on the receiver

Each method has the pointer receiver `a *scheduledAppointments`. Here a method is a
program in the state monad over the calendar state: every read of a field of the
receiver is a `get`, every assignment to a field is a `modify`. -/

/-- The method `getRelevantAppointments` as a program on the receiver. -/
def getRelevantAppointmentsM (request : Appointment) :
    StateM scheduledAppointments (List Appointment × Option Error) := do
  let appointmentsList := (← get).appointmentsList
  return (appointmentsList.filter (fun scheduledApp =>
      decide (scheduledApp.TrainerID = request.TrainerID)
        && scheduledApp.StartTime.Before request.EndTime
        && scheduledApp.EndTime.After request.StartTime),
    none)

/-- The method `GetAvailableAppointments` as a program on the receiver. -/
def GetAvailableAppointmentsM (request : Appointment) :
    StateM scheduledAppointments (Except Error (List Appointment)) := do
  let trainerIDs := (← get).TrainerIDs
  if !isValidTrainerID request.TrainerID trainerIDs then
    return .error (.UnknownTrainer none)
  else
    match validateStartAndEndTime request.StartTime request.EndTime with
    | some err => return .error err
    | none =>
      match ← getRelevantAppointmentsM request with
      | (_, some err) => return .error err
      | (relevantAppointments, none) =>
        return .ok (availableLoop request.TrainerID relevantAppointments request.EndTime
          request.StartTime [])

/-- The method `GetScheduledAppointments` as a program on the receiver. -/
def GetScheduledAppointmentsM (trainerID : Int) :
    StateM scheduledAppointments (Except Error (List Appointment)) := do
  let trainerIDs := (← get).TrainerIDs
  if !isValidTrainerID trainerID trainerIDs then
    return .error (.UnknownTrainer (some trainerID))
  else
    let appointmentsList := (← get).appointmentsList
    return .ok (appointmentsList.filter (fun app => decide (app.TrainerID = trainerID)))

/-- The method `CreateAppointment` as a program on the receiver: after the checks it
assigns to `latestID` and to `appointmentsList`. -/
def CreateAppointmentM (appointment : Appointment) :
    StateM scheduledAppointments (Option Error) := do
  let trainerIDs := (← get).TrainerIDs
  if !isValidTrainerID appointment.TrainerID trainerIDs then
    return some (.UnknownTrainer none)
  else
    match validateStartAndEndTime appointment.StartTime appointment.EndTime with
    | some err => return some err
    | none =>
      if appointment.EndTime.Sub appointment.StartTime ≠ thirtyMinutes then
        return some .InvalidDuration
      else
        match ← getRelevantAppointmentsM appointment with
        | (_, some err) => return some err
        | (relevantAppointments, none) =>
          if relevantAppointments.any
              (fun existingAppointment =>
                appointment.StartTime.Equal existingAppointment.StartTime) then
            return some .SlotTaken
          else
            modify (fun a => { a with latestID := wrapInt64 (a.latestID + 1) })
            let latestID := (← get).latestID
            modify (fun a =>
              { a with
                appointmentsList := a.appointmentsList ++ [{ appointment with ID := latestID }] })
            return none

/-- A query on the calendar: one of the two read operations with its argument. -/
inductive Query where
  | available (request : Appointment)
  | scheduled (trainerID : Int)

/-- The program that runs a sequence of queries one after the other and drops their
results. -/
def runQueriesM : List Query → StateM scheduledAppointments Unit
  | [] => pure ()
  | .available request :: rest => do
    let _ ← GetAvailableAppointmentsM request
    runQueriesM rest
  | .scheduled trainerID :: rest => do
    let _ ← GetScheduledAppointmentsM trainerID
    runQueriesM rest

/-- The program of the idempotence property: the availability query, then a sequence of
queries, then the same availability query again; it returns both results. -/
def queryTwiceM (request : Appointment) (between : List Query) :
    StateM scheduledAppointments
      (Except Error (List Appointment) × Except Error (List Appointment)) := do
  let first ← GetAvailableAppointmentsM request
  runQueriesM between
  let second ← GetAvailableAppointmentsM request
  return (first, second)

/-- The availability query, then a booking, then the same availability query again. -/
def queryBookQueryM (request booking : Appointment) :
    StateM scheduledAppointments
      (Except Error (List Appointment) × Except Error (List Appointment)) := do
  let first ← GetAvailableAppointmentsM request
  let _ ← CreateAppointmentM booking
  let second ← GetAvailableAppointmentsM request
  return (first, second)

/-- `t.Second()`: the second offset within the minute, in the range 0 to 59. -/
def Time.Second (t : Time) : Int := (t.nanos / 1000000000) % 60

/-- The booking request of trainer 1 for 09:00:30 to 09:30:30 of day zero. -/
def nineAndThirtySeconds : Appointment :=
  { StartTime := clock 0 9 0 30, EndTime := clock 0 9 30 30, UserID := 2, TrainerID := 1 }

/-! ## The interface `Manager` and the mock manager -/

/-- The interface `Manager` as a handler sees it: the values each operation returns.
A returned Go `error` is represented by its text, `none` being `nil`. -/
structure Manager where
  GetAvailableAppointments : Appointment → List Appointment × Option String
  GetScheduledAppointments : Int → List Appointment × Option String
  CreateAppointment : Appointment → Option String

/-- The struct `MockAppointmentManager`. -/
structure MockAppointmentManager where
  AppointmentsList : List Appointment
  Err : Option String

/-- The function `NewMockAppointmentManager`. -/
def NewMockAppointmentManager (AppointmentsList : List Appointment) (err : Option String) :
    MockAppointmentManager :=
  { AppointmentsList := AppointmentsList, Err := err }

/-- The method `GetAvailableAppointments` of the mock. -/
def MockAppointmentManager.GetAvailableAppointments (m : MockAppointmentManager)
    (_appReq : Appointment) : List Appointment × Option String :=
  match m.Err with
  | some err => ([], some err)
  | none => (m.AppointmentsList, none)

/-- The method `CreateAppointment` of the mock. -/
def MockAppointmentManager.CreateAppointment (m : MockAppointmentManager)
    (_app : Appointment) : Option String :=
  match m.Err with
  | some err => some err
  | none => none

/-- The method `GetScheduledAppointments` of the mock. -/
def MockAppointmentManager.GetScheduledAppointments (m : MockAppointmentManager)
    (_trainerID : Int) : List Appointment × Option String :=
  match m.Err with
  | some err => ([], some err)
  | none => (m.AppointmentsList, none)

/-- The mock seen through the interface `Manager`. -/
def MockAppointmentManager.asManager (m : MockAppointmentManager) : Manager :=
  { GetAvailableAppointments := m.GetAvailableAppointments
    GetScheduledAppointments := m.GetScheduledAppointments
    CreateAppointment := m.CreateAppointment }

/-- The calendar in state `a` seen through the interface `Manager`, for one call. -/
def scheduledAppointments.asManager (a : scheduledAppointments) : Manager :=
  { GetAvailableAppointments := fun request =>
      match a.GetAvailableAppointments request with
      | .ok available => (available, none)
      | .error err => ([], some err.message)
    GetScheduledAppointments := fun trainerID =>
      match a.GetScheduledAppointments trainerID with
      | .ok scheduled => (scheduled, none)
      | .error err => ([], some err.message)
    CreateAppointment := fun app => (a.CreateAppointment app).2.map Error.message }

end appointment

namespace handlers

/-! ## The HTTP handlers of `pkg/handlers` -/

/-- The constant `http.StatusOK`. -/
def StatusOK : Int := 200

/-- The constant `http.StatusCreated`. -/
def StatusCreated : Int := 201

/-- The constant `http.StatusBadRequest`. -/
def StatusBadRequest : Int := 400

/-- The part of an `echo.Context` that the handlers read: the value stored under the key
`appointment`, if any. -/
structure Context where
  appointment : Option appointment.Appointment

/-- The function `SetAppointment`. -/
def SetAppointment (c : Context) (app : appointment.Appointment) : Context :=
  { c with appointment := some app }

/-- The function `GetAppointment`; `none` stands for the failure of its type assertion when
nothing is stored under the key. -/
def GetAppointment (c : Context) : Option appointment.Appointment := c.appointment

/-- The call on the context with which a handler ends, `c.String(code, s)`,
`c.JSON(code, i)` or `c.NoContent(code)`; the handler returns what that call returns. -/
inductive Reply where
  | string (code : Int) (s : String)
  | json (code : Int) (i : List appointment.Appointment)
  | noContent (code : Int)

/-- The error values a handler may return: an `*echo.HTTPError` with its status code and
message, or another Go error with its text. -/
inductive HandlerError where
  | HTTPError (Code : Int) (Message : String)
  | other (text : String)

/-- The status code that the final call of a handler writes to the response. Modelled from
the echo library, which is not part of the repository: each of `c.String`, `c.JSON` and
`c.NoContent` writes the status code it is given. -/
def Reply.status : Reply → Int
  | .string code _ => code
  | .json code _ => code
  | .noContent code => code

/-- The error that the final call of a handler returns, given the error `writeErr` of
writing the body to the response (`none` when the write succeeds, as with the recorder
of the tests). Modelled from the echo library, which is not part of the repository:
`c.String` and `c.JSON` return the error of writing the body, `c.NoContent` returns
`nil`; none of them builds an `*echo.HTTPError`. -/
def Reply.returned (writeErr : Option String) : Reply → Option HandlerError
  | .string _ _ => writeErr.map HandlerError.other
  | .json _ _ => writeErr.map HandlerError.other
  | .noContent _ => none

/-- The function `handleGetAvailableTimes`. -/
def handleGetAvailableTimes (c : Context) (appManager : appointment.Manager) : Option Reply :=
  match GetAppointment c with
  | none => none
  | some appRequest =>
    match appManager.GetAvailableAppointments appRequest with
    | (_, some err) =>
      some (.string StatusBadRequest ("error getting available appointments: " ++ err))
    | (availableAppointments, none) => some (.json StatusOK availableAppointments)

/-- The function `handleGetScheduledAppointments`. -/
def handleGetScheduledAppointments (c : Context) (appManager : appointment.Manager) :
    Option Reply :=
  match GetAppointment c with
  | none => none
  | some appRequest =>
    match appManager.GetScheduledAppointments appRequest.TrainerID with
    | (_, some err) =>
      some (.string StatusBadRequest ("error getting scheduled appointments: " ++ err))
    | (appointments, none) => some (.json StatusOK appointments)

/-- The function `handlePostAppointment`. -/
def handlePostAppointment (c : Context) (appManager : appointment.Manager) : Option Reply :=
  match GetAppointment c with
  | none => none
  | some appRequest =>
    match appManager.CreateAppointment appRequest with
    | some err => some (.string StatusBadRequest ("error creating appointment: " ++ err))
    | none => some (.noContent StatusCreated)

/-- The context of the handler tests: a fresh context in which the appointment of
trainer 1 has been stored with `SetAppointment`. The times of the appointment are the
zero value and are not read by the handlers. -/
def testContext : Context :=
  SetAppointment { appointment := none } { StartTime := ⟨0⟩, EndTime := ⟨0⟩, TrainerID := 1 }

/-- The manager of the failing cases of the handler tests: a mock with the given error. -/
def failingManager (err : String) : appointment.Manager :=
  (appointment.NewMockAppointmentManager [] (some err)).asManager

/-- The manager of the successful cases of the handler tests: a mock without error that
holds one appointment of trainer 1. -/
def workingManager : appointment.Manager :=
  (appointment.NewMockAppointmentManager
    [{ StartTime := ⟨0⟩, EndTime := ⟨0⟩, TrainerID := 1 }] none).asManager

end handlers

namespace appointment

/-- Records as the appointments file may hold them: one record of trainer 1, 10:00 to
10:30 of day zero, whose id is the largest Go `int`. -/
def maxIdRecords : List Appointment :=
  [{ ID := 9223372036854775807, StartTime := clock 0 10 0 0, EndTime := clock 0 10 30 0,
     UserID := 1, TrainerID := 1 }]

/-- A calendar in which trainer 1 has one booking, 09:00:30 to 09:30:30 of day zero: it is
30 minutes long and its minutes are 0 and 30, with 30 seconds past the minute. -/
def bookedNineAndThirtySeconds : scheduledAppointments :=
  { appointmentsList :=
      [{ ID := 1, StartTime := clock 0 9 0 30, EndTime := clock 0 9 30 30, UserID := 1,
         TrainerID := 1 }]
    latestID := 1
    TrainerIDs := {1} }

/-! ## Lemmas on the slot walk -/

theorem thirtyMinutes_eq : thirtyMinutes = 1800000000000 := by decide

theorem stepCount_of_not_before (t e : Time) (h : ¬ t.nanos < e.nanos) : stepCount t e = 0 := by
  simp only [stepCount, thirtyMinutes_eq]
  omega

theorem stepCount_of_before (t e : Time) (h : t.nanos < e.nanos) :
    stepCount t e = stepCount (t.Add thirtyMinutes) e + 1 := by
  simp only [stepCount, thirtyMinutes_eq, Time.Add]
  omega

theorem lt_stepCount_iff (t e : Time) (k : Nat) :
    k < stepCount t e ↔ t.nanos + (k : Int) * thirtyMinutes < e.nanos := by
  simp only [stepCount, thirtyMinutes_eq]
  omega

theorem boundaries_of_not_before (t e : Time) (h : ¬ t.nanos < e.nanos) :
    boundaries t e = [] := by
  simp [boundaries, stepCount_of_not_before t e h]

theorem boundaries_of_before (t e : Time) (h : t.nanos < e.nanos) :
    boundaries t e = t :: boundaries (t.Add thirtyMinutes) e := by
  simp only [boundaries, stepCount_of_before t e h, List.range_succ_eq_map, List.map_cons,
    List.map_map]
  congr 1
  · simp [Time.Add]
  · apply List.map_congr_left
    intro k _
    simp only [Function.comp, Time.Add, Nat.cast_succ, Time.mk.injEq]
    ring

theorem mem_boundaries (s e t : Time) :
    t ∈ boundaries s e ↔
      ∃ k : Nat, t = s.Add ((k : Int) * thirtyMinutes) ∧ t.nanos < e.nanos := by
  simp only [boundaries, List.mem_map, List.mem_range, lt_stepCount_iff]
  constructor
  · rintro ⟨k, hk, rfl⟩
    exact ⟨k, rfl, hk⟩
  · rintro ⟨k, rfl, hk⟩
    exact ⟨k, hk, rfl⟩

theorem boundaries_pairwise (s e : Time) :
    (boundaries s e).Pairwise (fun t u => t.nanos < u.nanos) := by
  simp only [boundaries, List.pairwise_map]
  refine List.Pairwise.imp ?_ (List.pairwise_lt_range _)
  intro i j hij
  simp only [Time.Add, thirtyMinutes_eq]
  omega

theorem isSlotAvailable_iff (slot : Time) (l : List Appointment) :
    isSlotAvailable slot l = true ↔ ∀ x ∈ l, x.StartTime ≠ slot := by
  induction l with
  | nil => simp [isSlotAvailable]
  | cons x rest ih =>
    simp only [isSlotAvailable, Time.Equal, List.mem_cons, forall_eq_or_imp]
    by_cases hx : slot.nanos = x.StartTime.nanos
    · have : x.StartTime = slot := by cases slot; cases h : x.StartTime; simp_all
      simp [hx, this]
    · have : x.StartTime ≠ slot := by intro h; exact hx (by rw [h])
      simp [hx, this, ih]

theorem mem_getRelevantAppointments (a : scheduledAppointments) (request x : Appointment) :
    x ∈ (a.getRelevantAppointments request).1 ↔
      x ∈ a.appointmentsList ∧ x.TrainerID = request.TrainerID ∧
        x.StartTime.nanos < request.EndTime.nanos ∧
        request.StartTime.nanos < x.EndTime.nanos := by
  simp [scheduledAppointments.getRelevantAppointments, Time.Before, Time.After, and_assoc]

theorem availableLoop_eq (trainerID : Int) (relevant : List Appointment) (e : Time) :
    ∀ (n : Nat) (t : Time) (acc : List Appointment), stepCount t e = n →
      availableLoop trainerID relevant e t acc =
        acc ++ ((boundaries t e).filter (fun u => isSlotAvailable u relevant)).map
          (slotAt trainerID) := by
  intro n
  induction n with
  | zero =>
    intro t acc hn
    have hlt : ¬ t.nanos < e.nanos := by
      intro h
      rw [stepCount_of_before t e h] at hn
      omega
    rw [availableLoop, boundaries_of_not_before t e hlt]
    simp [Time.Before, hlt]
  | succ n ih =>
    intro t acc hn
    have hlt : t.nanos < e.nanos := by
      by_contra h
      rw [stepCount_of_not_before t e h] at hn
      omega
    have hn2 : stepCount (t.Add thirtyMinutes) e = n := by
      rw [stepCount_of_before t e hlt] at hn
      omega
    rw [availableLoop, boundaries_of_before t e hlt]
    simp only [Time.Before, hlt, decide_True, if_true]
    rw [ih _ _ hn2]
    by_cases hav : isSlotAvailable t relevant = true
    · simp [hav, List.filter_cons]
    · simp [hav, List.filter_cons]

theorem GetAvailableAppointments_eq (a : scheduledAppointments) (request : Appointment)
    (hT : request.TrainerID ∈ a.TrainerIDs)
    (hV : validateStartAndEndTime request.StartTime request.EndTime = none) :
    a.GetAvailableAppointments request =
      .ok (((boundaries request.StartTime request.EndTime).filter
            (fun u => isSlotAvailable u (a.getRelevantAppointments request).1)).map
          (slotAt request.TrainerID)) := by
  simp only [scheduledAppointments.GetAvailableAppointments, isValidTrainerID, hT, hV,
    scheduledAppointments.getRelevantAppointments]
  simp [availableLoop_eq _ _ _ _ _ _ rfl]

theorem Sub_eq_thirtyMinutes_iff (t u : Time) :
    t.Sub u = thirtyMinutes ↔ t.nanos = u.nanos + thirtyMinutes := by
  simp only [Time.Sub, thirtyMinutes_eq, minDuration, maxDuration]
  split_ifs <;> constructor <;> intro h <;> first | omega | exact h.elim

theorem Minute_of_onHalfHour (t : Time) (h : onHalfHour t) : t.Minute % 30 = 0 := by
  simp only [onHalfHour, thirtyMinutes_eq] at h
  simp only [Time.Minute]
  omega

theorem validate_of_window (s e : Time) (hS : onHalfHour s) (hE : onHalfHour e)
    (hLe : s.nanos ≤ e.nanos) (hHS : 8 ≤ s.Hour ∧ s.Hour ≤ 17)
    (hHE : 8 ≤ e.Hour ∧ e.Hour ≤ 17) : validateStartAndEndTime s e = none := by
  have h1 := Minute_of_onHalfHour s hS
  have h2 := Minute_of_onHalfHour e hE
  have h3 : ¬ e.nanos < s.nanos := by omega
  have h4 : ¬ (s.Hour < 8 ∨ s.Hour > 17 ∨ e.Hour < 8 ∨ e.Hour > 17) := by omega
  simp [validateStartAndEndTime, h1, h2, Time.After, h3, h4]

/-! ## Lemmas on `CreateAppointment` -/

theorem Time.Equal_iff (t u : Time) : t.Equal u = true ↔ t = u := by
  cases t
  cases u
  simp [Time.Equal]

theorem isValidTrainerID_iff (trainerID : Int) (trainers : Finset Int) :
    isValidTrainerID trainerID trainers = true ↔ trainerID ∈ trainers := by
  by_cases h : trainerID ∈ trainers <;> simp [isValidTrainerID, h]

theorem CreateAppointment_eq_of_unknown (a : scheduledAppointments) (r : Appointment)
    (hT : r.TrainerID ∉ a.TrainerIDs) :
    a.CreateAppointment r = (a, some (.UnknownTrainer none)) := by
  simp [scheduledAppointments.CreateAppointment, isValidTrainerID, hT]

theorem CreateAppointment_eq_of_invalid (a : scheduledAppointments) (r : Appointment)
    (e : Error) (hT : r.TrainerID ∈ a.TrainerIDs)
    (hV : validateStartAndEndTime r.StartTime r.EndTime = some e) :
    a.CreateAppointment r = (a, some e) := by
  simp [scheduledAppointments.CreateAppointment, isValidTrainerID, hT, hV]

theorem CreateAppointment_eq_of_duration (a : scheduledAppointments) (r : Appointment)
    (hT : r.TrainerID ∈ a.TrainerIDs)
    (hV : validateStartAndEndTime r.StartTime r.EndTime = none)
    (hD : r.EndTime.Sub r.StartTime ≠ thirtyMinutes) :
    a.CreateAppointment r = (a, some .InvalidDuration) := by
  simp [scheduledAppointments.CreateAppointment, isValidTrainerID, hT, hV, hD]

theorem CreateAppointment_eq_of_taken (a : scheduledAppointments) (r : Appointment)
    (hT : r.TrainerID ∈ a.TrainerIDs)
    (hV : validateStartAndEndTime r.StartTime r.EndTime = none)
    (hD : r.EndTime.Sub r.StartTime = thirtyMinutes)
    (hX : ∃ x ∈ (a.getRelevantAppointments r).1, x.StartTime = r.StartTime) :
    a.CreateAppointment r = (a, some .SlotTaken) := by
  obtain ⟨x, hx, hxs⟩ := hX
  have hany : (a.getRelevantAppointments r).1.any
      (fun existingAppointment => r.StartTime.Equal existingAppointment.StartTime) = true := by
    rw [List.any_eq_true]
    exact ⟨x, hx, (Time.Equal_iff _ _).2 hxs.symm⟩
  simp only [scheduledAppointments.getRelevantAppointments] at hany
  simp [scheduledAppointments.CreateAppointment, isValidTrainerID, hT, hV, hD,
    scheduledAppointments.getRelevantAppointments, hany]

theorem CreateAppointment_eq_of_free (a : scheduledAppointments) (r : Appointment)
    (hT : r.TrainerID ∈ a.TrainerIDs)
    (hV : validateStartAndEndTime r.StartTime r.EndTime = none)
    (hD : r.EndTime.Sub r.StartTime = thirtyMinutes)
    (hX : ∀ x ∈ (a.getRelevantAppointments r).1, x.StartTime ≠ r.StartTime) :
    a.CreateAppointment r =
      ({ a with
          latestID := wrapInt64 (a.latestID + 1)
          appointmentsList := a.appointmentsList ++ [{ r with ID := wrapInt64 (a.latestID + 1) }] },
       none) := by
  have hany : ¬ (a.getRelevantAppointments r).1.any
      (fun existingAppointment => r.StartTime.Equal existingAppointment.StartTime) = true := by
    rw [List.any_eq_true]
    rintro ⟨x, hx, hxs⟩
    exact hX x hx ((Time.Equal_iff _ _).1 hxs).symm
  simp only [scheduledAppointments.getRelevantAppointments] at hany
  simp only [scheduledAppointments.CreateAppointment, isValidTrainerID, hT, hV, hD,
    scheduledAppointments.getRelevantAppointments]
  simp [hany]

/-- The five paths through `CreateAppointment`. -/
theorem CreateAppointment_paths (a : scheduledAppointments) (r : Appointment) :
    (r.TrainerID ∉ a.TrainerIDs ∧ a.CreateAppointment r = (a, some (.UnknownTrainer none))) ∨
    (r.TrainerID ∈ a.TrainerIDs ∧
      ∃ e, validateStartAndEndTime r.StartTime r.EndTime = some e ∧
        a.CreateAppointment r = (a, some e)) ∨
    (r.TrainerID ∈ a.TrainerIDs ∧ validateStartAndEndTime r.StartTime r.EndTime = none ∧
      r.EndTime.Sub r.StartTime ≠ thirtyMinutes ∧
      a.CreateAppointment r = (a, some .InvalidDuration)) ∨
    (r.TrainerID ∈ a.TrainerIDs ∧ validateStartAndEndTime r.StartTime r.EndTime = none ∧
      r.EndTime.Sub r.StartTime = thirtyMinutes ∧
      (∃ x ∈ (a.getRelevantAppointments r).1, x.StartTime = r.StartTime) ∧
      a.CreateAppointment r = (a, some .SlotTaken)) ∨
    (r.TrainerID ∈ a.TrainerIDs ∧ validateStartAndEndTime r.StartTime r.EndTime = none ∧
      r.EndTime.Sub r.StartTime = thirtyMinutes ∧
      (∀ x ∈ (a.getRelevantAppointments r).1, x.StartTime ≠ r.StartTime) ∧
      a.CreateAppointment r =
        ({ a with
            latestID := wrapInt64 (a.latestID + 1)
            appointmentsList := a.appointmentsList ++ [{ r with ID := wrapInt64 (a.latestID + 1) }] },
         none)) := by
  by_cases hT : r.TrainerID ∈ a.TrainerIDs
  · right
    cases hV : validateStartAndEndTime r.StartTime r.EndTime with
    | some e => exact Or.inl ⟨hT, e, rfl, CreateAppointment_eq_of_invalid a r e hT hV⟩
    | none =>
      right
      by_cases hD : r.EndTime.Sub r.StartTime = thirtyMinutes
      · right
        by_cases hX : ∃ x ∈ (a.getRelevantAppointments r).1, x.StartTime = r.StartTime
        · exact Or.inl ⟨hT, rfl, hD, hX, CreateAppointment_eq_of_taken a r hT hV hD hX⟩
        · have hX2 : ∀ x ∈ (a.getRelevantAppointments r).1, x.StartTime ≠ r.StartTime :=
            fun x hx hxs => hX ⟨x, hx, hxs⟩
          exact Or.inr ⟨hT, rfl, hD, hX2, CreateAppointment_eq_of_free a r hT hV hD hX2⟩
      · exact Or.inl ⟨hT, rfl, hD, CreateAppointment_eq_of_duration a r hT hV hD⟩
  · exact Or.inl ⟨hT, CreateAppointment_eq_of_unknown a r hT⟩

theorem CreateAppointment_of_success (a : scheduledAppointments) (r : Appointment)
    (h : (a.CreateAppointment r).2 = none) :
    r.TrainerID ∈ a.TrainerIDs ∧ validateStartAndEndTime r.StartTime r.EndTime = none ∧
      r.EndTime.Sub r.StartTime = thirtyMinutes ∧
      (∀ x ∈ (a.getRelevantAppointments r).1, x.StartTime ≠ r.StartTime) ∧
      a.CreateAppointment r =
        ({ a with
            latestID := wrapInt64 (a.latestID + 1)
            appointmentsList := a.appointmentsList ++ [{ r with ID := wrapInt64 (a.latestID + 1) }] },
         none) := by
  rcases CreateAppointment_paths a r with h1 | h1 | h1 | h1 | h1
  · rw [h1.2] at h; cases h
  · obtain ⟨-, e, -, he⟩ := h1
    rw [he] at h; cases h
  · rw [h1.2.2.2] at h; cases h
  · rw [h1.2.2.2.2] at h; cases h
  · exact h1

theorem CreateAppointment_of_failure (a : scheduledAppointments) (r : Appointment) (e : Error)
    (h : (a.CreateAppointment r).2 = some e) :
    a.CreateAppointment r = (a, some e) ∧
      (e = .UnknownTrainer none ∨ e = .InvalidAlignment ∨ e = .InvalidOrder ∨
        e = .OutOfHours ∨ e = .InvalidDuration ∨ e = .SlotTaken) := by
  rcases CreateAppointment_paths a r with h1 | h1 | h1 | h1 | h1
  · rw [h1.2] at h ⊢
    cases h
    exact ⟨rfl, Or.inl rfl⟩
  · obtain ⟨-, e2, hv, he⟩ := h1
    rw [he] at h ⊢
    cases h
    refine ⟨rfl, ?_⟩
    simp only [validateStartAndEndTime] at hv
    split_ifs at hv <;> cases hv <;> simp
  · rw [h1.2.2.2] at h ⊢
    cases h
    exact ⟨rfl, by simp⟩
  · rw [h1.2.2.2.2] at h ⊢
    cases h
    exact ⟨rfl, by simp⟩
  · rw [h1.2.2.2.2] at h
    cases h

theorem Minute_mod_thirty_iff (t : Time) :
    t.Minute % 30 = 0 ↔ (t.Minute = 0 ∨ t.Minute = 30) := by
  simp only [Time.Minute]
  omega

theorem GetScheduledAppointments_eq (a : scheduledAppointments) (trainerID : Int)
    (hT : trainerID ∈ a.TrainerIDs) :
    a.GetScheduledAppointments trainerID =
      .ok (a.appointmentsList.filter (fun app => decide (app.TrainerID = trainerID))) := by
  simp [scheduledAppointments.GetScheduledAppointments, isValidTrainerID, hT]

/-! ## Lemmas on construction and on sequences of bookings -/

/-- The loop of `NewAppointmentManager`, started from any state: the list is untouched,
the trainer set gains the trainers of the records, and `latestID` becomes the greatest
of its start value and the ids of the records. -/
theorem NewAppointmentManager_loop (l : List Appointment) :
    ∀ init : scheduledAppointments,
      (l.foldl
        (fun apps app =>
          { apps with
            latestID := if app.ID > apps.latestID then app.ID else apps.latestID
            TrainerIDs := insert app.TrainerID apps.TrainerIDs })
        init).appointmentsList = init.appointmentsList ∧
      (∀ t, t ∈ (l.foldl
        (fun apps app =>
          { apps with
            latestID := if app.ID > apps.latestID then app.ID else apps.latestID
            TrainerIDs := insert app.TrainerID apps.TrainerIDs })
        init).TrainerIDs ↔ t ∈ init.TrainerIDs ∨ ∃ x ∈ l, x.TrainerID = t) ∧
      init.latestID ≤ (l.foldl
        (fun apps app =>
          { apps with
            latestID := if app.ID > apps.latestID then app.ID else apps.latestID
            TrainerIDs := insert app.TrainerID apps.TrainerIDs })
        init).latestID ∧
      (∀ x ∈ l, x.ID ≤ (l.foldl
        (fun apps app =>
          { apps with
            latestID := if app.ID > apps.latestID then app.ID else apps.latestID
            TrainerIDs := insert app.TrainerID apps.TrainerIDs })
        init).latestID) ∧
      ((l.foldl
        (fun apps app =>
          { apps with
            latestID := if app.ID > apps.latestID then app.ID else apps.latestID
            TrainerIDs := insert app.TrainerID apps.TrainerIDs })
        init).latestID = init.latestID ∨
        ∃ x ∈ l, x.ID = (l.foldl
          (fun apps app =>
            { apps with
              latestID := if app.ID > apps.latestID then app.ID else apps.latestID
              TrainerIDs := insert app.TrainerID apps.TrainerIDs })
          init).latestID) := by
  induction l with
  | nil =>
    intro init
    simp
  | cons y rest ih =>
    intro init
    simp only [List.foldl_cons]
    have hm : ∃ m : Int, m = (if y.ID > init.latestID then y.ID else init.latestID) ∧
        init.latestID ≤ m ∧ y.ID ≤ m ∧ (m = init.latestID ∨ m = y.ID) := by
      refine ⟨_, rfl, ?_, ?_, ?_⟩ <;> split_ifs <;> omega
    obtain ⟨m, hme, hm1, hm2, hm3⟩ := hm
    rw [← hme]
    obtain ⟨h1, h2, h3, h4, h5⟩ := ih
      { init with latestID := m, TrainerIDs := insert y.TrainerID init.TrainerIDs }
    simp only at h1 h2 h3 h4 h5
    refine ⟨h1, ?_, ?_, ?_, ?_⟩
    · intro t
      rw [h2 t]
      simp only [Finset.mem_insert, List.mem_cons, exists_eq_or_imp]
      constructor
      · rintro ((h | h) | h)
        · exact Or.inr (Or.inl h.symm)
        · exact Or.inl h
        · exact Or.inr (Or.inr h)
      · rintro (h | h | h)
        · exact Or.inl (Or.inr h)
        · exact Or.inl (Or.inl h.symm)
        · exact Or.inr h
    · omega
    · intro x hx
      rcases List.mem_cons.1 hx with rfl | hx
      · omega
      · exact h4 x hx
    · rcases h5 with h5 | ⟨x, hx, hxe⟩
      · rcases hm3 with hm3 | hm3
        · left
          rw [h5, hm3]
        · right
          exact ⟨y, List.mem_cons_self _ _, by rw [h5, hm3]⟩
      · exact Or.inr ⟨x, List.mem_cons_of_mem _ hx, hxe⟩

theorem NewAppointmentManager_appointmentsList (decoded : List Appointment) :
    (NewAppointmentManager decoded).appointmentsList = decoded :=
  (NewAppointmentManager_loop decoded _).1

theorem mem_NewAppointmentManager_TrainerIDs (decoded : List Appointment) (t : Int) :
    t ∈ (NewAppointmentManager decoded).TrainerIDs ↔ ∃ x ∈ decoded, x.TrainerID = t := by
  have h := (NewAppointmentManager_loop decoded
    { appointmentsList := decoded, latestID := 0, TrainerIDs := ∅ }).2.1 t
  simpa [NewAppointmentManager] using h

theorem NewAppointmentManager_latestID (decoded : List Appointment) :
    0 ≤ (NewAppointmentManager decoded).latestID ∧
      (∀ x ∈ decoded, x.ID ≤ (NewAppointmentManager decoded).latestID) ∧
      ((NewAppointmentManager decoded).latestID = 0 ∨
        ∃ x ∈ decoded, x.ID = (NewAppointmentManager decoded).latestID) := by
  obtain ⟨-, -, h3, h4, h5⟩ := NewAppointmentManager_loop decoded
    { appointmentsList := decoded, latestID := 0, TrainerIDs := ∅ }
  exact ⟨h3, h4, h5⟩

/-- One call of `CreateAppointment` either leaves the state as it was or appends the
request with the incremented `latestID` as id and stores the incremented counter. -/
theorem CreateAppointment_state (a : scheduledAppointments) (r : Appointment) :
    (a.CreateAppointment r).1 = a ∨
      ((a.CreateAppointment r).2 = none ∧
        (a.CreateAppointment r).1 =
          { a with
            latestID := wrapInt64 (a.latestID + 1)
            appointmentsList := a.appointmentsList ++ [{ r with ID := wrapInt64 (a.latestID + 1) }] }) := by
  cases h : (a.CreateAppointment r).2 with
  | some e =>
    left
    rw [(CreateAppointment_of_failure a r e h).1]
  | none =>
    right
    obtain ⟨-, -, -, -, heq⟩ := CreateAppointment_of_success a r h
    exact ⟨rfl, by rw [heq]⟩

theorem wrapInt64_of_range (n : Int) (h1 : -9223372036854775808 ≤ n)
    (h2 : n ≤ 9223372036854775807) : wrapInt64 n = n := by
  simp only [wrapInt64]
  omega

theorem wrapInt64_max : wrapInt64 (9223372036854775807 + 1) = -9223372036854775808 := by
  decide

/-- Any sequence of bookings keeps the trainer set and only appends to the stored list. -/
theorem bookAll_frame (requests : List Appointment) :
    ∀ a : scheduledAppointments,
      (bookAll a requests).TrainerIDs = a.TrainerIDs ∧
        ∃ created : List Appointment,
          (bookAll a requests).appointmentsList = a.appointmentsList ++ created := by
  induction requests with
  | nil =>
    intro a
    exact ⟨rfl, [], by simp [bookAll]⟩
  | cons r rest ih =>
    intro a
    simp only [bookAll]
    rcases CreateAppointment_state a r with hs | ⟨-, hs⟩
    · rw [hs]
      exact ih a
    · rw [hs]
      obtain ⟨h1, created, h2⟩ := ih
        { a with
          latestID := wrapInt64 (a.latestID + 1)
          appointmentsList :=
            a.appointmentsList ++ [{ r with ID := wrapInt64 (a.latestID + 1) }] }
      exact ⟨h1, { r with ID := wrapInt64 (a.latestID + 1) } :: created,
        by rw [h2]; simp⟩

/-- The invariant of id assignment, as long as the counter does not pass the largest
machine integer: the list is a fixed base followed by created appointments with
strictly increasing ids, all greater than the ids of the base, and `latestID` bounds
every stored id. It is kept by any sequence of bookings. -/
theorem bookAll_ids (base : List Appointment) (requests : List Appointment) :
    ∀ (a : scheduledAppointments) (created : List Appointment),
      a.appointmentsList = base ++ created →
      created.Pairwise (fun x y => x.ID < y.ID) →
      (∀ x ∈ base, ∀ y ∈ created, x.ID < y.ID) →
      (∀ x ∈ a.appointmentsList, x.ID ≤ a.latestID) →
      0 ≤ a.latestID →
      a.latestID + (requests.length : Int) ≤ 9223372036854775807 →
      ∃ created2 : List Appointment,
        (bookAll a requests).appointmentsList = base ++ created2 ∧
        created2.Pairwise (fun x y => x.ID < y.ID) ∧
        (∀ x ∈ base, ∀ y ∈ created2, x.ID < y.ID) ∧
        (∀ x ∈ (bookAll a requests).appointmentsList, x.ID ≤ (bookAll a requests).latestID) ∧
        0 ≤ (bookAll a requests).latestID ∧
        (bookAll a requests).latestID ≤ a.latestID + (requests.length : Int) := by
  induction requests with
  | nil =>
    intro a created h1 h2 h3 h4 h5 _
    exact ⟨created, h1, h2, h3, h4, h5, by simp [bookAll]⟩
  | cons r rest ih =>
    intro a created h1 h2 h3 h4 h5 h6
    simp only [bookAll]
    have hlen : ((r :: rest).length : Int) = (rest.length : Int) + 1 := by simp
    rw [hlen] at h6 ⊢
    rcases CreateAppointment_state a r with hs | ⟨-, hs⟩
    · rw [hs]
      obtain ⟨c2, k1, k2, k3, k4, k5, k6⟩ := ih a created h1 h2 h3 h4 h5 (by omega)
      exact ⟨c2, k1, k2, k3, k4, k5, by omega⟩
    · rw [hs]
      have hw : wrapInt64 (a.latestID + 1) = a.latestID + 1 :=
        wrapInt64_of_range _ (by omega) (by omega)
      rw [hw]
      have hlist : ∀ x ∈ base ++ created, x.ID ≤ a.latestID := by
        rw [← h1]
        exact h4
      obtain ⟨c2, k1, k2, k3, k4, k5, k6⟩ := ih
        { a with
          latestID := a.latestID + 1
          appointmentsList := a.appointmentsList ++ [{ r with ID := a.latestID + 1 }] }
        (created ++ [{ r with ID := a.latestID + 1 }])
        (by simp [h1])
        (by
          rw [List.pairwise_append]
          refine ⟨h2, List.pairwise_singleton _ _, ?_⟩
          intro x hx y hy
          rw [List.mem_singleton] at hy
          subst hy
          have := hlist x (List.mem_append_right _ hx)
          show x.ID < a.latestID + 1
          omega)
        (by
          intro x hx y hy
          rcases List.mem_append.1 hy with hy | hy
          · exact h3 x hx y hy
          · rw [List.mem_singleton] at hy
            subst hy
            have := hlist x (List.mem_append_left _ hx)
            show x.ID < a.latestID + 1
            omega)
        (by
          intro x hx
          simp only [List.mem_append, List.mem_singleton] at hx
          rcases hx with hx | hx
          · have := h4 x hx
            show x.ID ≤ a.latestID + 1
            omega
          · subst hx
            exact le_refl _)
        (by show 0 ≤ a.latestID + 1; omega)
        (by show a.latestID + 1 + (rest.length : Int) ≤ 9223372036854775807; omega)
      refine ⟨c2, k1, k2, k3, k4, k5, ?_⟩
      have : (bookAll
          { a with
            latestID := a.latestID + 1
            appointmentsList := a.appointmentsList ++ [{ r with ID := a.latestID + 1 }] }
          rest).latestID ≤ a.latestID + 1 + (rest.length : Int) := k6
      omega

theorem validate_eq_none_iff (s e : Time) :
    validateStartAndEndTime s e = none ↔
      s.Minute % 30 = 0 ∧ e.Minute % 30 = 0 ∧ ¬ e.nanos < s.nanos ∧
        (8 ≤ s.Hour ∧ s.Hour ≤ 17) ∧ (8 ≤ e.Hour ∧ e.Hour ≤ 17) := by
  simp only [validateStartAndEndTime, Time.After]
  constructor
  · intro h
    split_ifs at h with h1 h2 h3
    simp only [decide_eq_true_eq] at h2
    refine ⟨?_, ?_, h2, ?_, ?_⟩ <;> omega
  · rintro ⟨h1, h2, h3, h4, h5⟩
    have k1 : ¬ (s.Minute % 30 ≠ 0 ∨ e.Minute % 30 ≠ 0) := by omega
    have k3 : ¬ (s.Hour < 8 ∨ s.Hour > 17 ∨ e.Hour < 8 ∨ e.Hour > 17) := by omega
    rw [if_neg k1, if_neg (by simpa using h3), if_neg k3]

/-! ## Lemmas on the queries -/

theorem GetAvailableAppointments_of_ok (a : scheduledAppointments) (r : Appointment)
    (slots : List Appointment) (h : a.GetAvailableAppointments r = .ok slots) :
    r.TrainerID ∈ a.TrainerIDs ∧ validateStartAndEndTime r.StartTime r.EndTime = none ∧
      slots = ((boundaries r.StartTime r.EndTime).filter
            (fun u => isSlotAvailable u (a.getRelevantAppointments r).1)).map
          (slotAt r.TrainerID) := by
  by_cases hT : r.TrainerID ∈ a.TrainerIDs
  · cases hV : validateStartAndEndTime r.StartTime r.EndTime with
    | some e =>
      simp [scheduledAppointments.GetAvailableAppointments, isValidTrainerID, hT, hV] at h
    | none =>
      rw [GetAvailableAppointments_eq a r hT hV] at h
      cases h
      exact ⟨hT, rfl, rfl⟩
  · simp [scheduledAppointments.GetAvailableAppointments, isValidTrainerID, hT] at h

theorem mem_freeSlots (a : scheduledAppointments) (r x : Appointment) :
    x ∈ ((boundaries r.StartTime r.EndTime).filter
            (fun u => isSlotAvailable u (a.getRelevantAppointments r).1)).map
          (slotAt r.TrainerID) ↔
      ∃ k : Nat,
        x = slotAt r.TrainerID (r.StartTime.Add ((k : Int) * thirtyMinutes)) ∧
        (r.StartTime.Add ((k : Int) * thirtyMinutes)).nanos < r.EndTime.nanos ∧
        ∀ g ∈ (a.getRelevantAppointments r).1,
          g.StartTime ≠ r.StartTime.Add ((k : Int) * thirtyMinutes) := by
  simp only [List.mem_map, List.mem_filter, mem_boundaries, isSlotAvailable_iff]
  constructor
  · rintro ⟨t, ⟨⟨k, rfl, hk⟩, hfree⟩, rfl⟩
    exact ⟨k, rfl, hk, hfree⟩
  · rintro ⟨k, rfl, hk, hfree⟩
    exact ⟨_, ⟨⟨k, rfl, hk⟩, hfree⟩, rfl⟩

theorem Minute_add_steps (s : Time) (k : Nat) (h : s.Minute % 30 = 0) :
    (s.Add ((k : Int) * thirtyMinutes)).Minute % 30 = 0 ∧
      ((s.Add ((k : Int) * thirtyMinutes)).Add thirtyMinutes).Minute % 30 = 0 := by
  simp only [Time.Minute, Time.Add, thirtyMinutes_eq] at h ⊢
  omega

theorem Hour_of_same_day (s e t : Time) (hday : dayOf s = dayOf e)
    (h1 : s.nanos ≤ t.nanos) (h2 : t.nanos ≤ e.nanos)
    (hs : 8 ≤ s.Hour) (he : e.Hour ≤ 17) : 8 ≤ t.Hour ∧ t.Hour ≤ 17 := by
  simp only [Time.Hour, dayOf] at *
  omega

/-! ## Lemmas on availability after a booking -/

theorem isSlotAvailable_append (u : Time) (l m : List Appointment) :
    isSlotAvailable u (l ++ m) = (isSlotAvailable u l && isSlotAvailable u m) := by
  rw [Bool.eq_iff_iff, Bool.and_eq_true, isSlotAvailable_iff, isSlotAvailable_iff,
    isSlotAvailable_iff]
  simp only [List.mem_append]
  constructor
  · intro h
    exact ⟨fun x hx => h x (Or.inl hx), fun x hx => h x (Or.inr hx)⟩
  · rintro ⟨h1, h2⟩ x (hx | hx)
    · exact h1 x hx
    · exact h2 x hx

/-- The closed form of the free slots after one more appointment `x`, which ends 30 minutes
after its start, has been stored: for the trainer of `x` the slots starting at the start
of `x` are removed, for any other trainer nothing changes. -/
theorem freeSlots_after_append (s : scheduledAppointments) (n : Int) (x r : Appointment)
    (hx : x.EndTime.nanos = x.StartTime.nanos + thirtyMinutes) :
    ((boundaries r.StartTime r.EndTime).filter
        (fun u => isSlotAvailable u
          (scheduledAppointments.getRelevantAppointments
            { s with latestID := n, appointmentsList := s.appointmentsList ++ [x] } r).1)).map
      (slotAt r.TrainerID) =
    if r.TrainerID = x.TrainerID then
      (((boundaries r.StartTime r.EndTime).filter
        (fun u => isSlotAvailable u (s.getRelevantAppointments r).1)).map
          (slotAt r.TrainerID)).filter (fun y => !(y.StartTime.Equal x.StartTime))
    else
      ((boundaries r.StartTime r.EndTime).filter
        (fun u => isSlotAvailable u (s.getRelevantAppointments r).1)).map
          (slotAt r.TrainerID) := by
  have hrel : (scheduledAppointments.getRelevantAppointments
      { s with latestID := n, appointmentsList := s.appointmentsList ++ [x] } r).1 =
      (s.getRelevantAppointments r).1 ++
        [x].filter (fun scheduledApp =>
          decide (scheduledApp.TrainerID = r.TrainerID)
            && scheduledApp.StartTime.Before r.EndTime
            && scheduledApp.EndTime.After r.StartTime) := by
    simp only [scheduledAppointments.getRelevantAppointments, List.filter_append]
  rw [hrel]
  by_cases hT : r.TrainerID = x.TrainerID
  · rw [if_pos hT, List.filter_map, List.filter_filter]
    congr 1
    apply List.filter_congr
    intro u hu
    obtain ⟨k, rfl, hk⟩ := (mem_boundaries _ _ _).1 hu
    rw [isSlotAvailable_append]
    simp only [Function.comp, slotAt]
    rw [Bool.and_comm]
    congr 1
    by_cases hg : x.StartTime.nanos < r.EndTime.nanos ∧ r.StartTime.nanos < x.EndTime.nanos
    · have hf : [x].filter (fun scheduledApp =>
          decide (scheduledApp.TrainerID = r.TrainerID)
            && scheduledApp.StartTime.Before r.EndTime
            && scheduledApp.EndTime.After r.StartTime) = [x] := by
        simp [List.filter_cons, hT, Time.Before, Time.After, hg.1, hg.2]
      rw [hf]
      simp only [isSlotAvailable]
      cases (r.StartTime.Add ((k : Int) * thirtyMinutes)).Equal x.StartTime <;> rfl
    · have hf : [x].filter (fun scheduledApp =>
          decide (scheduledApp.TrainerID = r.TrainerID)
            && scheduledApp.StartTime.Before r.EndTime
            && scheduledApp.EndTime.After r.StartTime) = [] := by
        simp only [List.filter_cons, Time.Before, Time.After]
        have : ¬ (x.StartTime.nanos < r.EndTime.nanos ∧ r.StartTime.nanos < x.EndTime.nanos) := hg
        by_cases h1 : x.StartTime.nanos < r.EndTime.nanos
        · have h2 : ¬ r.StartTime.nanos < x.EndTime.nanos := fun h2 => hg ⟨h1, h2⟩
          simp [h1, h2]
        · simp [h1]
      rw [hf]
      have hne : ¬ (r.StartTime.nanos + (k : Int) * thirtyMinutes = x.StartTime.nanos) := by
        intro he
        apply hg
        simp only [Time.Add, thirtyMinutes_eq] at hk he hx ⊢
        constructor <;> omega
      simp only [isSlotAvailable, Time.Equal, Time.Add, hne, decide_False, Bool.not_false]
  · rw [if_neg hT]
    have hf : [x].filter (fun scheduledApp =>
        decide (scheduledApp.TrainerID = r.TrainerID)
          && scheduledApp.StartTime.Before r.EndTime
          && scheduledApp.EndTime.After r.StartTime) = [] := by
      have hT2 : ¬ x.TrainerID = r.TrainerID := fun h => hT h.symm
      simp [List.filter_cons, hT2]
    rw [hf, List.append_nil]

/-! ## Lemmas on the methods as programs -/

theorem getRelevantAppointmentsM_run (request : Appointment) (a : scheduledAppointments) :
    (getRelevantAppointmentsM request).run a = (a.getRelevantAppointments request, a) := by
  rfl

theorem CreateAppointmentM_run (appointment : Appointment) (a : scheduledAppointments) :
    (CreateAppointmentM appointment).run a =
      ((a.CreateAppointment appointment).2, (a.CreateAppointment appointment).1) := by
  simp only [CreateAppointmentM, scheduledAppointments.CreateAppointment,
    StateT.run_bind, StateT.run_get, Id.pure_eq, Id.bind_eq]
  by_cases hT : isValidTrainerID appointment.TrainerID a.TrainerIDs = true
  · simp only [hT, Bool.not_true, Bool.false_eq_true, if_false]
    cases hV : validateStartAndEndTime appointment.StartTime appointment.EndTime with
    | some err => rfl
    | none =>
      by_cases hD : appointment.EndTime.Sub appointment.StartTime = thirtyMinutes
      · simp only [hD, ne_eq, not_true_eq_false, if_false]
        by_cases hX : (a.getRelevantAppointments appointment).1.any
            (fun existingAppointment =>
              appointment.StartTime.Equal existingAppointment.StartTime) = true
        · simp only [scheduledAppointments.getRelevantAppointments] at hX
          simp only [StateT.run_bind, getRelevantAppointmentsM_run,
            scheduledAppointments.getRelevantAppointments, Id.bind_eq, hX, if_true]
          rfl
        · simp only [scheduledAppointments.getRelevantAppointments] at hX
          simp only [StateT.run_bind, getRelevantAppointmentsM_run,
            scheduledAppointments.getRelevantAppointments, Id.bind_eq, hX]
          rfl
      · simp only [hD, ne_eq, not_false_eq_true, if_true]
        rfl
  · simp only [hT, Bool.not_false, if_true]
    rfl

/-! ## Claims -/

/-- C1 (no double booking as an invariant of `CreateAppointment`), evaluated at a failing
input. The stored list holds one appointment of trainer 1, 09:00:00 to 09:30:00: it is
30 minutes long, starts and ends on minute 0 and 30 (even exactly on the half hour) and
has no double booking. The request 09:00:30 to 09:30:30 for trainer 1 is accepted, and
the resulting list holds two overlapping appointments of trainer 1. -/
theorem CreateAppointment_double_books :
    (∀ x ∈ bookedNine.appointmentsList,
        x.EndTime.Sub x.StartTime = thirtyMinutes ∧
        x.StartTime.Minute % 30 = 0 ∧ x.EndTime.Minute % 30 = 0 ∧
        onHalfHour x.StartTime ∧ onHalfHour x.EndTime) ∧
      noDoubleBooking bookedNine.appointmentsList ∧
      (bookedNine.CreateAppointment
        { StartTime := clock 0 9 0 30, EndTime := clock 0 9 30 30, TrainerID := 1 }).2 = none ∧
      ¬ noDoubleBooking (bookedNine.CreateAppointment
        { StartTime := clock 0 9 0 30, EndTime := clock 0 9 30 30, TrainerID := 1 }).1.appointmentsList := by
  decide

/-- C2: for a known trainer and a window that passes `validateStartAndEndTime`,
`GetAvailableAppointments` succeeds; the returned slots are strictly increasing in
start time, and a value is returned exactly when it is the slot
`{StartTime = t, EndTime = t + 30min, TrainerID = request.TrainerID, ID = 0, UserID = 0}`
for a boundary `t = request.StartTime + k * 30min` with `t < request.EndTime` at which no
gathered appointment (same trainer, start before the window end, end after the window
start) starts. The result is also given in closed form over `boundaries`. -/
theorem GetAvailableAppointments_returns_free_slots (a : scheduledAppointments)
    (request : Appointment) (hT : request.TrainerID ∈ a.TrainerIDs)
    (hV : validateStartAndEndTime request.StartTime request.EndTime = none) :
    ∃ slots : List Appointment,
      a.GetAvailableAppointments request = .ok slots ∧
      slots = ((boundaries request.StartTime request.EndTime).filter
            (fun u => isSlotAvailable u (a.getRelevantAppointments request).1)).map
          (slotAt request.TrainerID) ∧
      slots.Pairwise (fun x y => x.StartTime.nanos < y.StartTime.nanos) ∧
      ∀ x : Appointment, x ∈ slots ↔
        ∃ k : Nat,
          x = { ID := 0
                StartTime := request.StartTime.Add ((k : Int) * thirtyMinutes)
                EndTime := (request.StartTime.Add ((k : Int) * thirtyMinutes)).Add thirtyMinutes
                UserID := 0
                TrainerID := request.TrainerID } ∧
          (request.StartTime.Add ((k : Int) * thirtyMinutes)).nanos < request.EndTime.nanos ∧
          ∀ g ∈ a.appointmentsList, g.TrainerID = request.TrainerID →
            g.StartTime.nanos < request.EndTime.nanos →
            request.StartTime.nanos < g.EndTime.nanos →
            g.StartTime ≠ request.StartTime.Add ((k : Int) * thirtyMinutes) := by
  refine ⟨_, GetAvailableAppointments_eq a request hT hV, rfl, ?_, ?_⟩
  · rw [List.pairwise_map]
    exact (boundaries_pairwise _ _).sublist (List.filter_sublist _)
  · intro x
    simp only [List.mem_map, List.mem_filter, mem_boundaries, isSlotAvailable_iff,
      mem_getRelevantAppointments]
    constructor
    · rintro ⟨t, ⟨⟨k, rfl, hk⟩, hfree⟩, rfl⟩
      exact ⟨k, rfl, hk, fun g hg h1 h2 h3 => hfree g ⟨hg, h1, h2, h3⟩⟩
    · rintro ⟨k, rfl, hk, hfree⟩
      exact ⟨_, ⟨⟨k, rfl, hk⟩, fun g hg => hfree g hg.1 hg.2.1 hg.2.2.1 hg.2.2.2⟩, rfl⟩

/-- C2, the scenario of the specification: trainer 1 is booked 09:00 to 09:30; the window
09:00 to 11:00 passes validation and yields the slots starting 09:30, 10:00 and 10:30. -/
theorem GetAvailableAppointments_returns_free_slots_witness :
    (1 : Int) ∈ bookedNine.TrainerIDs ∧
      validateStartAndEndTime (clock 0 9 0 0) (clock 0 11 0 0) = none ∧
      bookedNine.GetAvailableAppointments
          { StartTime := clock 0 9 0 0, EndTime := clock 0 11 0 0, TrainerID := 1 } =
        .ok [{ ID := 0, StartTime := clock 0 9 30 0, EndTime := clock 0 10 0 0, UserID := 0,
               TrainerID := 1 },
             { ID := 0, StartTime := clock 0 10 0 0, EndTime := clock 0 10 30 0, UserID := 0,
               TrainerID := 1 },
             { ID := 0, StartTime := clock 0 10 30 0, EndTime := clock 0 11 0 0, UserID := 0,
               TrainerID := 1 }] := by
  refine ⟨by decide, by decide, ?_⟩
  obtain ⟨slots, hok, heq, -, -⟩ :=
    GetAvailableAppointments_returns_free_slots bookedNine
      { StartTime := clock 0 9 0 0, EndTime := clock 0 11 0 0, TrainerID := 1 }
      (by decide) (by decide)
  rw [hok, heq]
  exact congrArg Except.ok (by decide)

/-- The partition of an exactly aligned window into free slots and bookings, stated on the
slots as `GetAvailableAppointments` builds them. -/
theorem partitions_window_aux (a : scheduledAppointments)
    (request : Appointment)
    (hStored : ∀ x ∈ a.appointmentsList,
      x.EndTime.Sub x.StartTime = thirtyMinutes ∧ onHalfHour x.StartTime ∧
        onHalfHour x.EndTime)
    (hT : request.TrainerID ∈ a.TrainerIDs)
    (hS : onHalfHour request.StartTime) (hE : onHalfHour request.EndTime)
    (hLe : request.StartTime.nanos ≤ request.EndTime.nanos)
    (hHS : 8 ≤ request.StartTime.Hour ∧ request.StartTime.Hour ≤ 17)
    (hHE : 8 ≤ request.EndTime.Hour ∧ request.EndTime.Hour ≤ 17) :
    ∃ slots : List Appointment,
      a.GetAvailableAppointments request = .ok slots ∧
      (∀ x ∈ slots, ∀ b ∈ a.appointmentsList, b.TrainerID = request.TrainerID →
        ¬ overlaps x b) ∧
      (∀ x ∈ slots, ∃ k : Nat,
        x = slotAt request.TrainerID (request.StartTime.Add ((k : Int) * thirtyMinutes)) ∧
        request.StartTime.nanos ≤ x.StartTime.nanos ∧
        x.EndTime.nanos ≤ request.EndTime.nanos) ∧
      (∀ k : Nat,
        (request.StartTime.Add ((k : Int) * thirtyMinutes)).nanos < request.EndTime.nanos →
        (slotAt request.TrainerID (request.StartTime.Add ((k : Int) * thirtyMinutes)) ∈ slots ∧
          ¬ ∃ b ∈ a.appointmentsList, b.TrainerID = request.TrainerID ∧
            overlaps (slotAt request.TrainerID
              (request.StartTime.Add ((k : Int) * thirtyMinutes))) b) ∨
        (slotAt request.TrainerID (request.StartTime.Add ((k : Int) * thirtyMinutes)) ∉ slots ∧
          ∃ b ∈ a.appointmentsList, b.TrainerID = request.TrainerID ∧
            b.StartTime = request.StartTime.Add ((k : Int) * thirtyMinutes) ∧
            b.EndTime = (request.StartTime.Add ((k : Int) * thirtyMinutes)).Add
              thirtyMinutes)) ∧
      ((∀ k : Nat,
          (request.StartTime.Add ((k : Int) * thirtyMinutes)).nanos < request.EndTime.nanos →
          ∃ b ∈ a.appointmentsList, b.TrainerID = request.TrainerID ∧
            b.StartTime = request.StartTime.Add ((k : Int) * thirtyMinutes)) →
        slots = []) := by
  have hV := validate_of_window _ _ hS hE hLe hHS hHE
  -- membership in the result
  have hmem : ∀ x : Appointment,
      x ∈ ((boundaries request.StartTime request.EndTime).filter
            (fun u => isSlotAvailable u (a.getRelevantAppointments request).1)).map
          (slotAt request.TrainerID) ↔
        ∃ k : Nat,
          x = slotAt request.TrainerID (request.StartTime.Add ((k : Int) * thirtyMinutes)) ∧
          (request.StartTime.Add ((k : Int) * thirtyMinutes)).nanos < request.EndTime.nanos ∧
          ∀ g ∈ a.appointmentsList, g.TrainerID = request.TrainerID →
            g.StartTime.nanos < request.EndTime.nanos →
            request.StartTime.nanos < g.EndTime.nanos →
            g.StartTime ≠ request.StartTime.Add ((k : Int) * thirtyMinutes) := by
    intro x
    simp only [List.mem_map, List.mem_filter, mem_boundaries, isSlotAvailable_iff,
      mem_getRelevantAppointments]
    constructor
    · rintro ⟨t, ⟨⟨k, rfl, hk⟩, hfree⟩, rfl⟩
      exact ⟨k, rfl, hk, fun g hg h1 h2 h3 => hfree g ⟨hg, h1, h2, h3⟩⟩
    · rintro ⟨k, rfl, hk, hfree⟩
      exact ⟨_, ⟨⟨k, rfl, hk⟩, fun g hg => hfree g hg.1 hg.2.1 hg.2.2.1 hg.2.2.2⟩, rfl⟩
  -- a stored appointment of the trainer that overlaps a grid cell is that cell
  have hcell : ∀ (k : Nat) (b : Appointment), b ∈ a.appointmentsList →
      overlaps (slotAt request.TrainerID (request.StartTime.Add ((k : Int) * thirtyMinutes))) b →
      b.StartTime = request.StartTime.Add ((k : Int) * thirtyMinutes) := by
    intro k b hb hov
    obtain ⟨hlen, hbs, -⟩ := hStored b hb
    rw [Sub_eq_thirtyMinutes_iff] at hlen
    simp only [overlaps, slotAt, Time.Add, onHalfHour, thirtyMinutes_eq] at hov hbs hS hlen
    have : b.StartTime.nanos = request.StartTime.nanos + (k : Int) * 1800000000000 := by omega
    cases hb2 : b.StartTime
    simp only [hb2] at this
    simp [Time.Add, thirtyMinutes_eq, this]
  refine ⟨_, GetAvailableAppointments_eq a request hT hV, ?_, ?_, ?_, ?_⟩
  · intro x hx b hb hbt hov
    obtain ⟨k, rfl, hk, hfree⟩ := (hmem x).1 hx
    have hbs := hcell k b hb hov
    obtain ⟨hlen, -, -⟩ := hStored b hb
    rw [Sub_eq_thirtyMinutes_iff] at hlen
    refine hfree b hb hbt ?_ ?_ hbs
    · rw [hbs]; exact hk
    · rw [hlen, hbs]
      simp only [Time.Add, thirtyMinutes_eq]
      omega
  · intro x hx
    obtain ⟨k, rfl, hk, -⟩ := (hmem x).1 hx
    refine ⟨k, rfl, ?_, ?_⟩
    · simp only [slotAt, Time.Add, thirtyMinutes_eq]
      omega
    · simp only [slotAt, Time.Add, onHalfHour, thirtyMinutes_eq] at hk hS hE ⊢
      omega
  · intro k hk
    by_cases hin : slotAt request.TrainerID
        (request.StartTime.Add ((k : Int) * thirtyMinutes)) ∈
          ((boundaries request.StartTime request.EndTime).filter
            (fun u => isSlotAvailable u (a.getRelevantAppointments request).1)).map
          (slotAt request.TrainerID)
    · left
      refine ⟨hin, ?_⟩
      rintro ⟨b, hb, hbt, hov⟩
      obtain ⟨k2, hk2, hlt2, hfree⟩ := (hmem _).1 hin
      have hbs := hcell k b hb hov
      obtain ⟨hlen, -, -⟩ := hStored b hb
      rw [Sub_eq_thirtyMinutes_iff] at hlen
      have hkk : request.StartTime.Add ((k : Int) * thirtyMinutes) =
          request.StartTime.Add ((k2 : Int) * thirtyMinutes) := by
        have := congrArg Appointment.StartTime hk2
        simpa [slotAt] using this
      refine hfree b hb hbt ?_ ?_ (hbs.trans hkk)
      · rw [hbs]; exact hk
      · rw [hlen, hbs]
        simp only [Time.Add, thirtyMinutes_eq]
        omega
    · right
      refine ⟨hin, ?_⟩
      by_contra hno
      apply hin
      refine (hmem _).2 ⟨k, rfl, hk, ?_⟩
      intro g hg hgt _ _ hgs
      apply hno
      obtain ⟨hlen, -, -⟩ := hStored g hg
      rw [Sub_eq_thirtyMinutes_iff] at hlen
      refine ⟨g, hg, hgt, hgs, ?_⟩
      cases hge : g.EndTime
      simp only [hge, hgs, Time.Add] at hlen
      simp [Time.Add, hlen]
  · intro hall
    rw [List.eq_nil_iff_forall_not_mem]
    intro x hx
    obtain ⟨k, rfl, hk, hfree⟩ := (hmem x).1 hx
    obtain ⟨b, hb, hbt, hbs⟩ := hall k hk
    obtain ⟨hlen, -, -⟩ := hStored b hb
    rw [Sub_eq_thirtyMinutes_iff] at hlen
    refine hfree b hb hbt ?_ ?_ hbs
    · rw [hbs]; exact hk
    · rw [hlen, hbs]
      simp only [Time.Add, thirtyMinutes_eq]
      omega

/-- C3 as stated fails when alignment is what the program checks, the minute being 0 or 30.
The stored appointment of trainer 1, 09:00:30 to 09:30:30, is 30 minutes long with
minutes 0 and 30; the window 09:00 to 10:00 of trainer 1 lies on half-hour boundaries
within business hours. Both cells of the window are returned, and the returned slot
09:00 to 09:30 overlaps the stored appointment. -/
theorem GetAvailableAppointments_partition_counterexample :
    (∀ x ∈ bookedNineAndThirtySeconds.appointmentsList,
        x.EndTime.Sub x.StartTime = thirtyMinutes ∧
        x.StartTime.Minute % 30 = 0 ∧ x.EndTime.Minute % 30 = 0) ∧
      (1 : Int) ∈ bookedNineAndThirtySeconds.TrainerIDs ∧
      onHalfHour (clock 0 9 0 0) ∧ onHalfHour (clock 0 10 0 0) ∧
      validateStartAndEndTime (clock 0 9 0 0) (clock 0 10 0 0) = none ∧
      bookedNineAndThirtySeconds.GetAvailableAppointments
          { StartTime := clock 0 9 0 0, EndTime := clock 0 10 0 0, TrainerID := 1 } =
        .ok [{ ID := 0, StartTime := clock 0 9 0 0, EndTime := clock 0 9 30 0, UserID := 0,
               TrainerID := 1 },
             { ID := 0, StartTime := clock 0 9 30 0, EndTime := clock 0 10 0 0, UserID := 0,
               TrainerID := 1 }] ∧
      (∃ b ∈ bookedNineAndThirtySeconds.appointmentsList, b.TrainerID = 1 ∧
        overlaps { ID := 0, StartTime := clock 0 9 0 0, EndTime := clock 0 9 30 0, UserID := 0,
                   TrainerID := 1 } b) := by
  refine ⟨by decide, by decide, by decide, by decide, by decide, ?_, by decide⟩
  rw [GetAvailableAppointments_eq _ _ (by decide) (by decide)]
  exact congrArg Except.ok (by decide)

/-- C3, amended: when every stored appointment is exactly 30 minutes long and lies exactly
on half-hour boundaries (no seconds and no fraction of a second past `hh:00` or
`hh:30`), and the window `[StartTime, EndTime)` of a known trainer lies exactly on
half-hour boundaries with both hours within 8 to 17, then `GetAvailableAppointments`
succeeds and the returned slots and the bookings of that trainer partition the window.
No returned slot overlaps a stored appointment of the trainer. Every returned slot is
the cell `{StartTime = t, EndTime = t + 30min, TrainerID = request.TrainerID, ID = 0,
UserID = 0}` of a boundary `t = StartTime + k * 30min`, and lies inside the window. Every
cell of the window is either returned and free of any booking of the trainer, or not
returned and exactly a stored appointment of the trainer. When every cell is booked the
result is the empty sequence, a success. -/
theorem GetAvailableAppointments_partitions_window (a : scheduledAppointments)
    (request : Appointment)
    (hStored : ∀ x ∈ a.appointmentsList,
      x.EndTime.Sub x.StartTime = thirtyMinutes ∧ onHalfHour x.StartTime ∧
        onHalfHour x.EndTime)
    (hT : request.TrainerID ∈ a.TrainerIDs)
    (hS : onHalfHour request.StartTime) (hE : onHalfHour request.EndTime)
    (hLe : request.StartTime.nanos ≤ request.EndTime.nanos)
    (hHS : 8 ≤ request.StartTime.Hour ∧ request.StartTime.Hour ≤ 17)
    (hHE : 8 ≤ request.EndTime.Hour ∧ request.EndTime.Hour ≤ 17) :
    ∃ slots : List Appointment,
      a.GetAvailableAppointments request = .ok slots ∧
      (∀ x ∈ slots, ∀ b ∈ a.appointmentsList, b.TrainerID = request.TrainerID →
        ¬ overlaps x b) ∧
      (∀ x ∈ slots, ∃ k : Nat,
        x = { ID := 0
              StartTime := request.StartTime.Add ((k : Int) * thirtyMinutes)
              EndTime := (request.StartTime.Add ((k : Int) * thirtyMinutes)).Add thirtyMinutes
              UserID := 0
              TrainerID := request.TrainerID } ∧
        request.StartTime.nanos ≤ x.StartTime.nanos ∧
        x.EndTime.nanos = x.StartTime.nanos + thirtyMinutes ∧
        x.EndTime.nanos ≤ request.EndTime.nanos) ∧
      (∀ k : Nat,
        (request.StartTime.Add ((k : Int) * thirtyMinutes)).nanos < request.EndTime.nanos →
        (({ ID := 0
            StartTime := request.StartTime.Add ((k : Int) * thirtyMinutes)
            EndTime := (request.StartTime.Add ((k : Int) * thirtyMinutes)).Add thirtyMinutes
            UserID := 0
            TrainerID := request.TrainerID } : Appointment) ∈ slots ∧
          ¬ ∃ b ∈ a.appointmentsList, b.TrainerID = request.TrainerID ∧
            overlaps
              { ID := 0
                StartTime := request.StartTime.Add ((k : Int) * thirtyMinutes)
                EndTime :=
                  (request.StartTime.Add ((k : Int) * thirtyMinutes)).Add thirtyMinutes
                UserID := 0
                TrainerID := request.TrainerID } b) ∨
        (({ ID := 0
            StartTime := request.StartTime.Add ((k : Int) * thirtyMinutes)
            EndTime := (request.StartTime.Add ((k : Int) * thirtyMinutes)).Add thirtyMinutes
            UserID := 0
            TrainerID := request.TrainerID } : Appointment) ∉ slots ∧
          ∃ b ∈ a.appointmentsList, b.TrainerID = request.TrainerID ∧
            b.StartTime = request.StartTime.Add ((k : Int) * thirtyMinutes) ∧
            b.EndTime = (request.StartTime.Add ((k : Int) * thirtyMinutes)).Add
              thirtyMinutes)) ∧
      ((∀ k : Nat,
          (request.StartTime.Add ((k : Int) * thirtyMinutes)).nanos < request.EndTime.nanos →
          ∃ b ∈ a.appointmentsList, b.TrainerID = request.TrainerID ∧
            b.StartTime = request.StartTime.Add ((k : Int) * thirtyMinutes)) →
        slots = []) := by
  obtain ⟨slots, hok, h1, h2, h3, h4⟩ :=
    partitions_window_aux a request hStored hT hS hE hLe hHS hHE
  refine ⟨slots, hok, h1, ?_, h3, h4⟩
  intro x hx
  obtain ⟨k, hk, hlo, hhi⟩ := h2 x hx
  refine ⟨k, hk, hlo, ?_, hhi⟩
  rw [hk]
  rfl

/-- C3, amended, at the scenario of the specification: trainer 1 is booked 09:00 to 09:30
and the window is 09:00 to 11:00. The cells 09:30, 10:00 and 10:30 are returned, each
30 minutes long and overlapping no booking of trainer 1; the cell 09:00 is not returned
and is exactly the stored appointment. -/
theorem GetAvailableAppointments_partitions_window_witness :
    (∀ x ∈ bookedNine.appointmentsList,
        x.EndTime.Sub x.StartTime = thirtyMinutes ∧ onHalfHour x.StartTime ∧
          onHalfHour x.EndTime) ∧
      (1 : Int) ∈ bookedNine.TrainerIDs ∧
      onHalfHour (clock 0 9 0 0) ∧ onHalfHour (clock 0 11 0 0) ∧
      (clock 0 9 0 0).nanos ≤ (clock 0 11 0 0).nanos ∧
      (8 ≤ (clock 0 9 0 0).Hour ∧ (clock 0 9 0 0).Hour ≤ 17) ∧
      (8 ≤ (clock 0 11 0 0).Hour ∧ (clock 0 11 0 0).Hour ≤ 17) ∧
      bookedNine.GetAvailableAppointments
          { StartTime := clock 0 9 0 0, EndTime := clock 0 11 0 0, TrainerID := 1 } =
        .ok [{ ID := 0, StartTime := clock 0 9 30 0, EndTime := clock 0 10 0 0, UserID := 0,
               TrainerID := 1 },
             { ID := 0, StartTime := clock 0 10 0 0, EndTime := clock 0 10 30 0, UserID := 0,
               TrainerID := 1 },
             { ID := 0, StartTime := clock 0 10 30 0, EndTime := clock 0 11 0 0, UserID := 0,
               TrainerID := 1 }] ∧
      (∀ x ∈ ([{ ID := 0, StartTime := clock 0 9 30 0, EndTime := clock 0 10 0 0, UserID := 0,
                 TrainerID := 1 },
               { ID := 0, StartTime := clock 0 10 0 0, EndTime := clock 0 10 30 0, UserID := 0,
                 TrainerID := 1 },
               { ID := 0, StartTime := clock 0 10 30 0, EndTime := clock 0 11 0 0, UserID := 0,
                 TrainerID := 1 }] : List Appointment),
        ∀ b ∈ bookedNine.appointmentsList, b.TrainerID = 1 → ¬ overlaps x b) ∧
      (∃ b ∈ bookedNine.appointmentsList, b.TrainerID = 1 ∧
        b.StartTime = clock 0 9 0 0 ∧ b.EndTime = (clock 0 9 0 0).Add thirtyMinutes) := by
  have heval : bookedNine.GetAvailableAppointments
        { StartTime := clock 0 9 0 0, EndTime := clock 0 11 0 0, TrainerID := 1 } =
      .ok [{ ID := 0, StartTime := clock 0 9 30 0, EndTime := clock 0 10 0 0, UserID := 0,
             TrainerID := 1 },
           { ID := 0, StartTime := clock 0 10 0 0, EndTime := clock 0 10 30 0, UserID := 0,
             TrainerID := 1 },
           { ID := 0, StartTime := clock 0 10 30 0, EndTime := clock 0 11 0 0, UserID := 0,
             TrainerID := 1 }] := by
    rw [GetAvailableAppointments_eq _ _ (by decide) (by decide)]
    exact congrArg Except.ok (by decide)
  obtain ⟨slots, hok, hdisjoint, -, hcells, -⟩ :=
    GetAvailableAppointments_partitions_window bookedNine
      { StartTime := clock 0 9 0 0, EndTime := clock 0 11 0 0, TrainerID := 1 }
      (by decide) (by decide) (by decide) (by decide) (by decide) (by decide) (by decide)
  rw [heval] at hok
  cases hok
  refine ⟨by decide, by decide, by decide, by decide, by decide, by decide, by decide,
    heval, hdisjoint, ?_⟩
  rcases hcells 0 (by decide) with ⟨hin, -⟩ | ⟨-, b, hb, hbt, hbs, hbe⟩
  · exact absurd hin (by decide)
  · exact ⟨b, hb, hbt, hbs, hbe⟩

/-- C4 as stated fails: the stored record of trainer 1 starts at 09:00, exactly the start of
the request 09:00 to 09:30, which has a known trainer, passes validation and lasts
30 minutes; the record ends at 09:00, so the overlap gather leaves it out and
`CreateAppointment` succeeds. -/
theorem CreateAppointment_SlotTaken_counterexample :
    nineToHalfPast.TrainerID ∈ zeroLengthNine.TrainerIDs ∧
      validateStartAndEndTime nineToHalfPast.StartTime nineToHalfPast.EndTime = none ∧
      nineToHalfPast.EndTime.Sub nineToHalfPast.StartTime = thirtyMinutes ∧
      (∃ x ∈ zeroLengthNine.appointmentsList,
        x.TrainerID = nineToHalfPast.TrainerID ∧ x.StartTime = nineToHalfPast.StartTime) ∧
      (zeroLengthNine.CreateAppointment nineToHalfPast).2 = none ∧
      (zeroLengthNine.CreateAppointment nineToHalfPast).2 ≠ some .SlotTaken := by
  decide

/-- C4, amended: for a request with a known trainer that passes validation and lasts exactly
30 minutes, if some stored appointment of the same trainer starts at exactly the start
of the request and ends after it, `CreateAppointment` fails with `SlotTaken`
("appointment already exists at this time") and leaves the state as it was. In
particular, booking the same trainer and slot again right after a successful booking
fails with `SlotTaken`. -/
theorem CreateAppointment_SlotTaken (a : scheduledAppointments) (r : Appointment) :
    (r.TrainerID ∈ a.TrainerIDs →
      validateStartAndEndTime r.StartTime r.EndTime = none →
      r.EndTime.Sub r.StartTime = thirtyMinutes →
      (∃ x ∈ a.appointmentsList, x.TrainerID = r.TrainerID ∧ x.StartTime = r.StartTime ∧
        r.StartTime.nanos < x.EndTime.nanos) →
      a.CreateAppointment r = (a, some .SlotTaken) ∧
        Error.SlotTaken.message = "appointment already exists at this time") ∧
    ((a.CreateAppointment r).2 = none →
      ∀ r2 : Appointment, r2.TrainerID = r.TrainerID → r2.StartTime = r.StartTime →
        r2.EndTime = r.EndTime →
        ((a.CreateAppointment r).1.CreateAppointment r2).2 = some .SlotTaken) := by
  have key : ∀ (b : scheduledAppointments) (q : Appointment),
      q.TrainerID ∈ b.TrainerIDs →
      validateStartAndEndTime q.StartTime q.EndTime = none →
      q.EndTime.Sub q.StartTime = thirtyMinutes →
      (∃ x ∈ b.appointmentsList, x.TrainerID = q.TrainerID ∧ x.StartTime = q.StartTime ∧
        q.StartTime.nanos < x.EndTime.nanos) →
      b.CreateAppointment q = (b, some .SlotTaken) := by
    intro b q hT hV hD hX
    obtain ⟨x, hx, hxt, hxs, hxe⟩ := hX
    refine CreateAppointment_eq_of_taken b q hT hV hD ⟨x, ?_, hxs⟩
    rw [mem_getRelevantAppointments]
    refine ⟨hx, hxt, ?_, hxe⟩
    rw [Sub_eq_thirtyMinutes_iff] at hD
    rw [hxs, hD, thirtyMinutes_eq]
    omega
  refine ⟨fun hT hV hD hX => ⟨key a r hT hV hD hX, rfl⟩, ?_⟩
  intro hok r2 h1 h2 h3
  obtain ⟨hT, hV, hD, -, heq⟩ := CreateAppointment_of_success a r hok
  rw [heq]
  have hD2 := hD
  rw [Sub_eq_thirtyMinutes_iff] at hD2
  rw [key _ r2 (by rw [h1]; exact hT) (by rw [h2, h3]; exact hV) (by rw [h2, h3]; exact hD)]
  refine ⟨{ r with ID := wrapInt64 (a.latestID + 1) }, by simp, h1.symm, h2.symm, ?_⟩
  rw [h2]
  show r.StartTime.nanos < r.EndTime.nanos
  rw [hD2, thirtyMinutes_eq]
  omega

/-- C4 at concrete inputs: trainer 1 is booked 09:00 to 09:30, so the request for that slot
fails with `SlotTaken`; and in a calendar with nothing booked the request succeeds and
repeating it fails with `SlotTaken`. -/
theorem CreateAppointment_SlotTaken_witness :
    (nineToHalfPast.TrainerID ∈ bookedNine.TrainerIDs ∧
      validateStartAndEndTime nineToHalfPast.StartTime nineToHalfPast.EndTime = none ∧
      nineToHalfPast.EndTime.Sub nineToHalfPast.StartTime = thirtyMinutes ∧
      (∃ x ∈ bookedNine.appointmentsList, x.TrainerID = nineToHalfPast.TrainerID ∧
        x.StartTime = nineToHalfPast.StartTime ∧
        nineToHalfPast.StartTime.nanos < x.EndTime.nanos) ∧
      bookedNine.CreateAppointment nineToHalfPast = (bookedNine, some .SlotTaken)) ∧
    ((onlyTrainerOne.CreateAppointment nineToHalfPast).2 = none ∧
      ((onlyTrainerOne.CreateAppointment nineToHalfPast).1.CreateAppointment
        nineToHalfPast).2 = some .SlotTaken) :=
  ⟨⟨by decide, by decide, by decide, by decide,
      ((CreateAppointment_SlotTaken bookedNine nineToHalfPast).1
        (by decide) (by decide) (by decide) (by decide)).1⟩,
    by decide,
    (CreateAppointment_SlotTaken onlyTrainerOne nineToHalfPast).2 (by decide)
      nineToHalfPast rfl rfl rfl⟩

/-- C5 as stated fails at the largest Go `int`. After loading a record with id
9223372036854775807, `latestID` has that value; booking 09:00 to 09:30 for trainer 1
succeeds, and both the id of the appended appointment and the new `latestID` are
-9223372036854775808, not the old `latestID` plus one. -/
theorem CreateAppointment_appends_counterexample :
    (NewAppointmentManager maxIdRecords).latestID = 9223372036854775807 ∧
      ((NewAppointmentManager maxIdRecords).CreateAppointment nineToHalfPast).2 = none ∧
      ((NewAppointmentManager maxIdRecords).CreateAppointment
          nineToHalfPast).1.appointmentsList =
        maxIdRecords ++ [{ nineToHalfPast with ID := -9223372036854775808 }] ∧
      ((NewAppointmentManager maxIdRecords).CreateAppointment
          nineToHalfPast).1.appointmentsList ≠
        maxIdRecords ++
          [{ nineToHalfPast with ID := (NewAppointmentManager maxIdRecords).latestID + 1 }] ∧
      ((NewAppointmentManager maxIdRecords).CreateAppointment nineToHalfPast).1.latestID ≠
        (NewAppointmentManager maxIdRecords).latestID + 1 := by
  decide

/-- C5, amended: when `CreateAppointment` succeeds, the new appointment list is the old
list with exactly one appointment appended at the end; that appointment carries the
start time, end time, trainer and user of the request and, whatever id the caller
supplied, the id that `latestID++` yields on a 64-bit Go `int`: the old `latestID` plus
one when the old `latestID` is below 9223372036854775807, and -9223372036854775808 when
it is 9223372036854775807. The new `latestID` is that same value; the stored
appointments and the trainer set are unchanged. -/
theorem CreateAppointment_appends (a : scheduledAppointments) (r : Appointment)
    (h : (a.CreateAppointment r).2 = none) :
    (a.CreateAppointment r).1.appointmentsList =
        a.appointmentsList ++
          [{ ID := wrapInt64 (a.latestID + 1), StartTime := r.StartTime, EndTime := r.EndTime,
             UserID := r.UserID, TrainerID := r.TrainerID }] ∧
      (a.CreateAppointment r).1.appointmentsList.take a.appointmentsList.length =
        a.appointmentsList ∧
      (a.CreateAppointment r).1.latestID = wrapInt64 (a.latestID + 1) ∧
      (a.CreateAppointment r).1.TrainerIDs = a.TrainerIDs ∧
      (-9223372036854775808 ≤ a.latestID → a.latestID < 9223372036854775807 →
        wrapInt64 (a.latestID + 1) = a.latestID + 1) ∧
      (a.latestID = 9223372036854775807 →
        wrapInt64 (a.latestID + 1) = -9223372036854775808) := by
  obtain ⟨-, -, -, -, heq⟩ := CreateAppointment_of_success a r h
  rw [heq]
  refine ⟨by simp, by simp, rfl, rfl, ?_, ?_⟩
  · intro h1 h2
    exact wrapInt64_of_range _ (by omega) (by omega)
  · intro h1
    rw [h1]
    exact wrapInt64_max

/-- C5, amended, at the input of the test `TestCreateAppointment_Success`, with a
caller-supplied id of 77: the stored appointment has id 1. -/
theorem CreateAppointment_appends_witness :
    (onlyTrainerOne.CreateAppointment { nineToHalfPast with ID := 77 }).2 = none ∧
      (onlyTrainerOne.CreateAppointment { nineToHalfPast with ID := 77 }).1.appointmentsList =
        [{ ID := 1, StartTime := clock 0 9 0 0, EndTime := clock 0 9 30 0, UserID := 2,
           TrainerID := 1 }] ∧
      (onlyTrainerOne.CreateAppointment { nineToHalfPast with ID := 77 }).1.latestID = 1 :=
  ⟨by decide,
    (CreateAppointment_appends onlyTrainerOne { nineToHalfPast with ID := 77 }
      (by decide)).1,
    (CreateAppointment_appends onlyTrainerOne { nineToHalfPast with ID := 77 }
      (by decide)).2.2.1⟩

/-- C6: when `CreateAppointment` returns an error, the error is one of `UnknownTrainer`,
`InvalidAlignment`, `InvalidOrder`, `OutOfHours`, `InvalidDuration` and `SlotTaken`, and
the appointment list, `latestID` and the trainer set are what they were before the call. -/
theorem CreateAppointment_atomic (a : scheduledAppointments) (r : Appointment) (e : Error)
    (h : (a.CreateAppointment r).2 = some e) :
    (a.CreateAppointment r).1.appointmentsList = a.appointmentsList ∧
      (a.CreateAppointment r).1.latestID = a.latestID ∧
      (a.CreateAppointment r).1.TrainerIDs = a.TrainerIDs ∧
      (e = .UnknownTrainer none ∨ e = .InvalidAlignment ∨ e = .InvalidOrder ∨
        e = .OutOfHours ∨ e = .InvalidDuration ∨ e = .SlotTaken) := by
  obtain ⟨heq, hkind⟩ := CreateAppointment_of_failure a r e h
  rw [heq]
  exact ⟨rfl, rfl, rfl, hkind⟩

/-- C6 at a concrete input: the rejected second booking of 09:00 to 09:30 leaves the
calendar with its single appointment and `latestID = 1`. -/
theorem CreateAppointment_atomic_witness :
    (bookedNine.CreateAppointment nineToHalfPast).2 = some .SlotTaken ∧
      (bookedNine.CreateAppointment nineToHalfPast).1.appointmentsList =
        bookedNine.appointmentsList ∧
      (bookedNine.CreateAppointment nineToHalfPast).1.latestID = 1 :=
  ⟨by decide,
    (CreateAppointment_atomic bookedNine nineToHalfPast .SlotTaken (by decide)).1,
    (CreateAppointment_atomic bookedNine nineToHalfPast .SlotTaken (by decide)).2.1⟩

/-- C7 (round trip): when `CreateAppointment` succeeds on `r`, then in the resulting state
(1) `GetAvailableAppointments` for the trainer, start and end of `r` succeeds and returns
no slot that starts at the start of `r`, and (2) `GetScheduledAppointments` for the
trainer of `r` succeeds and its result has `r` with the newly assigned id as last element. -/
theorem CreateAppointment_round_trip (a : scheduledAppointments) (r : Appointment)
    (h : (a.CreateAppointment r).2 = none) :
    (∀ q : Appointment, q.TrainerID = r.TrainerID → q.StartTime = r.StartTime →
      q.EndTime = r.EndTime →
      ∃ slots : List Appointment,
        (a.CreateAppointment r).1.GetAvailableAppointments q = .ok slots ∧
        ∀ x ∈ slots, x.StartTime ≠ r.StartTime) ∧
    (∃ scheduled : List Appointment,
      (a.CreateAppointment r).1.GetScheduledAppointments r.TrainerID = .ok scheduled ∧
      scheduled.getLast? = some { r with ID := wrapInt64 (a.latestID + 1) } ∧
      { r with ID := wrapInt64 (a.latestID + 1) } ∈ scheduled) := by
  obtain ⟨hT, hV, hD, -, heq⟩ := CreateAppointment_of_success a r h
  rw [heq]
  rw [Sub_eq_thirtyMinutes_iff] at hD
  constructor
  · intro q h1 h2 h3
    refine ⟨_, GetAvailableAppointments_eq _ q (by rw [h1]; exact hT)
      (by rw [h2, h3]; exact hV), ?_⟩
    intro x hx
    simp only [List.mem_map, List.mem_filter, isSlotAvailable_iff,
      mem_getRelevantAppointments] at hx
    obtain ⟨t, ⟨-, hfree⟩, rfl⟩ := hx
    intro hxs
    refine hfree { r with ID := wrapInt64 (a.latestID + 1) } ⟨by simp, h1.symm, ?_, ?_⟩ hxs.symm
    · rw [h3]
      show r.StartTime.nanos < r.EndTime.nanos
      rw [hD, thirtyMinutes_eq]
      omega
    · rw [h2]
      show r.StartTime.nanos < r.EndTime.nanos
      rw [hD, thirtyMinutes_eq]
      omega
  · refine ⟨_, GetScheduledAppointments_eq _ r.TrainerID hT, ?_, ?_⟩
    · simp [List.filter_append, List.filter_cons]
    · simp [List.filter_append, List.filter_cons]

/-- C7 at a concrete input: after booking 09:00 to 09:30 for trainer 1 in an empty
calendar, the availability query for that window returns no slot, and the scheduled
appointments of trainer 1 are the single booking, with id 1. -/
theorem CreateAppointment_round_trip_witness :
    (onlyTrainerOne.CreateAppointment nineToHalfPast).2 = none ∧
      (∃ slots : List Appointment,
        (onlyTrainerOne.CreateAppointment nineToHalfPast).1.GetAvailableAppointments
            nineToHalfPast = .ok slots ∧
        ∀ x ∈ slots, x.StartTime ≠ clock 0 9 0 0) ∧
      (∃ scheduled : List Appointment,
        (onlyTrainerOne.CreateAppointment nineToHalfPast).1.GetScheduledAppointments 1 =
          .ok scheduled ∧
        scheduled.getLast? = some { nineToHalfPast with ID := 1 } ∧
        { nineToHalfPast with ID := 1 } ∈ scheduled) :=
  ⟨by decide,
    (CreateAppointment_round_trip onlyTrainerOne nineToHalfPast (by decide)).1
      nineToHalfPast rfl rfl rfl,
    (CreateAppointment_round_trip onlyTrainerOne nineToHalfPast (by decide)).2⟩

/-- C8: the trainer check comes first in all three operations. For a request whose trainer
is not in the trainer set, whatever its times are, `GetAvailableAppointments`,
`GetScheduledAppointments` and `CreateAppointment` each fail with `UnknownTrainer` and
return no result; `CreateAppointment` leaves the state as it was. -/
theorem unknown_trainer_is_rejected_first (a : scheduledAppointments) (r : Appointment)
    (h : r.TrainerID ∉ a.TrainerIDs) :
    a.GetAvailableAppointments r = .error (.UnknownTrainer none) ∧
      a.GetScheduledAppointments r.TrainerID = .error (.UnknownTrainer (some r.TrainerID)) ∧
      a.CreateAppointment r = (a, some (.UnknownTrainer none)) := by
  refine ⟨?_, ?_, CreateAppointment_eq_of_unknown a r h⟩
  · simp [scheduledAppointments.GetAvailableAppointments, isValidTrainerID, h]
  · simp [scheduledAppointments.GetScheduledAppointments, isValidTrainerID, h]

/-- C8 at a concrete input: trainer 2 is unknown, and the request 19:15 to 03:10 is
misaligned, inverted and out of hours; all three operations report the unknown trainer. -/
theorem unknown_trainer_is_rejected_first_witness :
    (2 : Int) ∉ onlyTrainerOne.TrainerIDs ∧
      validateStartAndEndTime (clock 0 19 15 0) (clock 0 3 10 0) = some .InvalidAlignment ∧
      onlyTrainerOne.GetAvailableAppointments
          { StartTime := clock 0 19 15 0, EndTime := clock 0 3 10 0, TrainerID := 2 } =
        .error (.UnknownTrainer none) ∧
      onlyTrainerOne.GetScheduledAppointments 2 = .error (.UnknownTrainer (some 2)) ∧
      (onlyTrainerOne.CreateAppointment
          { StartTime := clock 0 19 15 0, EndTime := clock 0 3 10 0, TrainerID := 2 }).2 =
        some (.UnknownTrainer none) :=
  ⟨by decide, by decide,
    (unknown_trainer_is_rejected_first onlyTrainerOne
      { StartTime := clock 0 19 15 0, EndTime := clock 0 3 10 0, TrainerID := 2 }
      (by decide)).1,
    (unknown_trainer_is_rejected_first onlyTrainerOne
      { StartTime := clock 0 19 15 0, EndTime := clock 0 3 10 0, TrainerID := 2 }
      (by decide)).2.1,
    congrArg Prod.snd (unknown_trainer_is_rejected_first onlyTrainerOne
      { StartTime := clock 0 19 15 0, EndTime := clock 0 3 10 0, TrainerID := 2 }
      (by decide)).2.2⟩

/-- C9 (the start must be strictly before the end), evaluated at a failing input: the
window 09:00 to 09:00 is aligned, within hours, and its start is not strictly before its
end, yet `validateStartAndEndTime` returns no error. For the known trainer 1,
`GetAvailableAppointments` then succeeds with no slot, and `CreateAppointment` fails
with `InvalidDuration` rather than `InvalidOrder`. -/
theorem validateStartAndEndTime_accepts_equal_times :
    (clock 0 9 0 0).Minute = 0 ∧ (clock 0 9 0 0).Hour = 9 ∧
      ¬ (clock 0 9 0 0).nanos < (clock 0 9 0 0).nanos ∧
      validateStartAndEndTime (clock 0 9 0 0) (clock 0 9 0 0) = none ∧
      validateStartAndEndTime (clock 0 9 0 0) (clock 0 9 0 0) ≠ some .InvalidOrder ∧
      (∃ slots, onlyTrainerOne.GetAvailableAppointments
          { StartTime := clock 0 9 0 0, EndTime := clock 0 9 0 0, TrainerID := 1 } =
        .ok slots) ∧
      (onlyTrainerOne.CreateAppointment
          { StartTime := clock 0 9 0 0, EndTime := clock 0 9 0 0, TrainerID := 1 }).2 =
        some .InvalidDuration := by
  refine ⟨by decide, by decide, by decide, by decide, by decide, ?_, by decide⟩
  exact ⟨_, GetAvailableAppointments_eq _ _ (by decide) (by decide)⟩

/-- C10: `validateStartAndEndTime` checks alignment, then order, then business hours, and
the first failure wins. If the minute of the start or of the end is not 0 or 30 the
result is `InvalidAlignment`, whatever the order and the hours; otherwise, if the start
is after the end the result is `InvalidOrder`, whatever the hours; otherwise, if the
hour of the start or of the end is outside 8 to 17 the result is `OutOfHours`. The
function is pure: its result depends on the two times only. -/
theorem validateStartAndEndTime_first_failure_wins (startTime endTime : Time) :
    (¬ (startTime.Minute = 0 ∨ startTime.Minute = 30) ∨
        ¬ (endTime.Minute = 0 ∨ endTime.Minute = 30) →
      validateStartAndEndTime startTime endTime = some .InvalidAlignment) ∧
    ((startTime.Minute = 0 ∨ startTime.Minute = 30) →
      (endTime.Minute = 0 ∨ endTime.Minute = 30) →
      endTime.nanos < startTime.nanos →
      validateStartAndEndTime startTime endTime = some .InvalidOrder) ∧
    ((startTime.Minute = 0 ∨ startTime.Minute = 30) →
      (endTime.Minute = 0 ∨ endTime.Minute = 30) →
      ¬ endTime.nanos < startTime.nanos →
      (startTime.Hour < 8 ∨ 17 < startTime.Hour ∨ endTime.Hour < 8 ∨ 17 < endTime.Hour) →
      validateStartAndEndTime startTime endTime = some .OutOfHours) := by
  refine ⟨?_, ?_, ?_⟩
  · intro h
    rw [← Minute_mod_thirty_iff, ← Minute_mod_thirty_iff] at h
    simp only [validateStartAndEndTime]
    rw [if_pos h]
  · intro h1 h2 h3
    rw [← Minute_mod_thirty_iff] at h1 h2
    simp [validateStartAndEndTime, h1, h2, Time.After, h3]
  · intro h1 h2 h3 h4
    rw [← Minute_mod_thirty_iff] at h1 h2
    have h5 : startTime.Hour < 8 ∨ startTime.Hour > 17 ∨ endTime.Hour < 8 ∨
        endTime.Hour > 17 := h4
    simp only [validateStartAndEndTime, h1, h2, Time.After, h3]
    simp only [ne_eq, not_true_eq_false, or_self, if_false, decide_False,
      Bool.false_eq_true]
    rw [if_pos h5]

/-- C10 at the inputs named by the claim: start 09:15, end 07:10 (misaligned, inverted and
out of hours) gives `InvalidAlignment`; start 09:00, end 07:00 (inverted, end hour out
of hours) gives `InvalidOrder`; start 07:00, end 10:00 gives `OutOfHours`. -/
theorem validateStartAndEndTime_first_failure_wins_witness :
    (¬ ((clock 0 9 15 0).Minute = 0 ∨ (clock 0 9 15 0).Minute = 30) ∧
      (clock 0 7 10 0).nanos < (clock 0 9 15 0).nanos ∧ (clock 0 7 10 0).Hour < 8 ∧
      validateStartAndEndTime (clock 0 9 15 0) (clock 0 7 10 0) = some .InvalidAlignment) ∧
    ((clock 0 7 0 0).nanos < (clock 0 9 0 0).nanos ∧ (clock 0 7 0 0).Hour < 8 ∧
      validateStartAndEndTime (clock 0 9 0 0) (clock 0 7 0 0) = some .InvalidOrder) ∧
    ((clock 0 7 0 0).Hour < 8 ∧
      validateStartAndEndTime (clock 0 7 0 0) (clock 0 10 0 0) = some .OutOfHours) :=
  ⟨⟨by decide, by decide, by decide,
      (validateStartAndEndTime_first_failure_wins (clock 0 9 15 0) (clock 0 7 10 0)).1
        (Or.inl (by decide))⟩,
    ⟨by decide, by decide,
      (validateStartAndEndTime_first_failure_wins (clock 0 9 0 0) (clock 0 7 0 0)).2.1
        (by decide) (by decide) (by decide)⟩,
    ⟨by decide,
      (validateStartAndEndTime_first_failure_wins (clock 0 7 0 0) (clock 0 10 0 0)).2.2
        (by decide) (by decide) (by decide) (by decide)⟩⟩

/-- C11: in `CreateAppointment` the window validation precedes the duration check, which
precedes the slot check. For a request with a known trainer: if
`validateStartAndEndTime` rejects the window, its error is the error returned, whatever
the duration; if it accepts the window and the end is not exactly 30 minutes after the
start, the error is `InvalidDuration`, whatever is stored. In both cases the state is
left as it was. -/
theorem CreateAppointment_check_order (a : scheduledAppointments) (r : Appointment) :
    (r.TrainerID ∈ a.TrainerIDs →
      ∀ e : Error, validateStartAndEndTime r.StartTime r.EndTime = some e →
        a.CreateAppointment r = (a, some e)) ∧
    (r.TrainerID ∈ a.TrainerIDs →
      validateStartAndEndTime r.StartTime r.EndTime = none →
      r.EndTime.nanos ≠ r.StartTime.nanos + thirtyMinutes →
      a.CreateAppointment r = (a, some .InvalidDuration)) := by
  refine ⟨fun hT e hV => CreateAppointment_eq_of_invalid a r e hT hV, ?_⟩
  intro hT hV hD
  refine CreateAppointment_eq_of_duration a r hT hV ?_
  rw [Ne, Sub_eq_thirtyMinutes_iff]
  exact hD

/-- C11 at the inputs named by the claim: for the known trainer 1, the request 09:00 to
09:45 (45 minutes long) gives the alignment error and 07:00 to 10:00 (three hours long)
gives the business-hours error; the request 09:00 to 10:00 passes validation, is not
30 minutes long and gives `InvalidDuration` although an appointment of trainer 1
already starts at 09:00. -/
theorem CreateAppointment_check_order_witness :
    ((1 : Int) ∈ onlyTrainerOne.TrainerIDs ∧
      (clock 0 9 45 0).nanos ≠ (clock 0 9 0 0).nanos + thirtyMinutes ∧
      onlyTrainerOne.CreateAppointment
          { StartTime := clock 0 9 0 0, EndTime := clock 0 9 45 0, TrainerID := 1 } =
        (onlyTrainerOne, some .InvalidAlignment)) ∧
    ((clock 0 10 0 0).nanos ≠ (clock 0 7 0 0).nanos + thirtyMinutes ∧
      onlyTrainerOne.CreateAppointment
          { StartTime := clock 0 7 0 0, EndTime := clock 0 10 0 0, TrainerID := 1 } =
        (onlyTrainerOne, some .OutOfHours)) ∧
    ((1 : Int) ∈ bookedNine.TrainerIDs ∧
      validateStartAndEndTime (clock 0 9 0 0) (clock 0 10 0 0) = none ∧
      (∃ x ∈ bookedNine.appointmentsList, x.TrainerID = 1 ∧ x.StartTime = clock 0 9 0 0) ∧
      bookedNine.CreateAppointment
          { StartTime := clock 0 9 0 0, EndTime := clock 0 10 0 0, TrainerID := 1 } =
        (bookedNine, some .InvalidDuration)) :=
  ⟨⟨by decide, by decide,
      (CreateAppointment_check_order onlyTrainerOne
        { StartTime := clock 0 9 0 0, EndTime := clock 0 9 45 0, TrainerID := 1 }).1
        (by decide) .InvalidAlignment (by decide)⟩,
    ⟨by decide,
      (CreateAppointment_check_order onlyTrainerOne
        { StartTime := clock 0 7 0 0, EndTime := clock 0 10 0 0, TrainerID := 1 }).1
        (by decide) .OutOfHours (by decide)⟩,
    ⟨by decide, by decide, by decide,
      (CreateAppointment_check_order bookedNine
        { StartTime := clock 0 9 0 0, EndTime := clock 0 10 0 0, TrainerID := 1 }).2
        (by decide) (by decide) (by decide)⟩⟩

/-- C12 as stated fails: trainer 1 is known and the request 09:00 to 09:45 of day zero is
rejected with `InvalidAlignment`, not with `InvalidDuration`. -/
theorem CreateAppointment_nine_to_quarter_to_ten_counterexample :
    (1 : Int) ∈ onlyTrainerOne.TrainerIDs ∧
      (onlyTrainerOne.CreateAppointment
          { StartTime := clock 0 9 0 0, EndTime := clock 0 9 45 0, TrainerID := 1 }).2 =
        some .InvalidAlignment ∧
      (onlyTrainerOne.CreateAppointment
          { StartTime := clock 0 9 0 0, EndTime := clock 0 9 45 0, TrainerID := 1 }).2 ≠
        some .InvalidDuration := by
  decide

/-- C12, amended: in every calendar in which trainer 1 is known, `CreateAppointment` for
trainer 1 with start 09:00 and end 09:45 of the same day fails with `InvalidAlignment`
("appointment times must start and end on the hour or half-hour") and leaves the state
as it was, whatever the day, the user and the id of the request. -/
theorem CreateAppointment_nine_to_quarter_to_ten (a : scheduledAppointments)
    (day id user : Int) (hT : (1 : Int) ∈ a.TrainerIDs) :
    a.CreateAppointment
        { ID := id, StartTime := clock day 9 0 0, EndTime := clock day 9 45 0, UserID := user,
          TrainerID := 1 } =
      (a, some .InvalidAlignment) ∧
    Error.InvalidAlignment.message =
      "appointment times must start and end on the hour or half-hour" := by
  refine ⟨CreateAppointment_eq_of_invalid a _ _ hT ?_, rfl⟩
  have hm : (clock day 9 45 0).Minute % 30 ≠ 0 := by
    simp only [clock, Time.Minute]
    omega
  simp only [validateStartAndEndTime]
  rw [if_pos (Or.inr hm)]

/-- C12, amended, at the input of the test `TestCreateAppointment_InvalidDuration`. -/
theorem CreateAppointment_nine_to_quarter_to_ten_witness :
    (1 : Int) ∈ onlyTrainerOne.TrainerIDs ∧
      onlyTrainerOne.CreateAppointment
          { ID := 0, StartTime := clock 0 9 0 0, EndTime := clock 0 9 45 0, UserID := 0,
            TrainerID := 1 } =
        (onlyTrainerOne, some .InvalidAlignment) :=
  ⟨by decide, (CreateAppointment_nine_to_quarter_to_ten onlyTrainerOne 0 0 0 (by decide)).1⟩

/-- C13: `GetScheduledAppointments` fails, with `UnknownTrainer` and without a list, exactly
when the id is not in the trainer set. For a known id it succeeds and returns the stored
appointments of that trainer in storage order: the result is the sublist of the stored
list that keeps exactly the appointments whose trainer is the id. It is the empty
sequence, a success, when the known trainer has no stored appointment. -/
theorem GetScheduledAppointments_spec (a : scheduledAppointments) (trainerID : Int) :
    ((∃ e, a.GetScheduledAppointments trainerID = .error e) ↔ trainerID ∉ a.TrainerIDs) ∧
    (trainerID ∉ a.TrainerIDs →
      a.GetScheduledAppointments trainerID = .error (.UnknownTrainer (some trainerID))) ∧
    (trainerID ∈ a.TrainerIDs →
      ∃ scheduled : List Appointment,
        a.GetScheduledAppointments trainerID = .ok scheduled ∧
        scheduled = a.appointmentsList.filter (fun app => decide (app.TrainerID = trainerID)) ∧
        scheduled.Sublist a.appointmentsList ∧
        (∀ x, x ∈ scheduled ↔ x ∈ a.appointmentsList ∧ x.TrainerID = trainerID) ∧
        (∀ x, x.TrainerID = trainerID → scheduled.count x = a.appointmentsList.count x) ∧
        ((∀ x ∈ a.appointmentsList, x.TrainerID ≠ trainerID) → scheduled = [])) := by
  have hbad : trainerID ∉ a.TrainerIDs →
      a.GetScheduledAppointments trainerID = .error (.UnknownTrainer (some trainerID)) := by
    intro h
    simp [scheduledAppointments.GetScheduledAppointments, isValidTrainerID, h]
  refine ⟨⟨?_, fun h => ⟨_, hbad h⟩⟩, hbad, ?_⟩
  · rintro ⟨e, he⟩ hT
    rw [GetScheduledAppointments_eq a trainerID hT] at he
    cases he
  · intro hT
    refine ⟨_, GetScheduledAppointments_eq a trainerID hT, rfl, List.filter_sublist _, ?_, ?_, ?_⟩
    · intro x
      simp [List.mem_filter]
    · intro x hx
      rw [List.count_filter]
      simp [hx]
    · intro hnone
      rw [List.filter_eq_nil_iff]
      intro x hx
      simpa using hnone x hx

/-- C13 at the inputs of the test `TestGetScheduledAppointments`: an unknown trainer gives
the error, and the known trainer 1 with nothing stored gives the empty sequence. -/
theorem GetScheduledAppointments_spec_witness :
    ((2 : Int) ∉ onlyTrainerOne.TrainerIDs ∧
      onlyTrainerOne.GetScheduledAppointments 2 = .error (.UnknownTrainer (some 2))) ∧
    ((1 : Int) ∈ onlyTrainerOne.TrainerIDs ∧
      (∀ x ∈ onlyTrainerOne.appointmentsList, x.TrainerID ≠ 1) ∧
      onlyTrainerOne.GetScheduledAppointments 1 = .ok []) := by
  refine ⟨⟨by decide, (GetScheduledAppointments_spec onlyTrainerOne 2).2.1 (by decide)⟩,
    by decide, by decide, ?_⟩
  obtain ⟨scheduled, hok, -, -, -, -, hnil⟩ :=
    (GetScheduledAppointments_spec onlyTrainerOne 1).2.2 (by decide)
  rw [hok, hnil (by decide)]

/-- C14 as stated fails. The records hold one appointment of trainer 1 whose id is the
largest Go `int`, 9223372036854775807; `NewAppointmentManager` sets `latestID` to it.
Booking 09:00 to 09:30 for trainer 1 succeeds, the increment of `latestID` wraps around
and the created appointment gets the id -9223372036854775808: it is smaller than the
stored id, and `latestID` is no longer at least every stored id. -/
theorem created_ids_counterexample :
    (NewAppointmentManager maxIdRecords).latestID = 9223372036854775807 ∧
      ((NewAppointmentManager maxIdRecords).CreateAppointment nineToHalfPast).2 = none ∧
      (bookAll (NewAppointmentManager maxIdRecords) [nineToHalfPast]).appointmentsList =
        maxIdRecords ++ [{ nineToHalfPast with ID := -9223372036854775808 }] ∧
      (bookAll (NewAppointmentManager maxIdRecords) [nineToHalfPast]).latestID =
        -9223372036854775808 ∧
      ¬ (∀ x ∈ (bookAll (NewAppointmentManager maxIdRecords)
          [nineToHalfPast]).appointmentsList,
        x.ID ≤ (bookAll (NewAppointmentManager maxIdRecords) [nineToHalfPast]).latestID) ∧
      ¬ (∀ x ∈ maxIdRecords,
        x.ID < ({ nineToHalfPast with ID := -9223372036854775808 } : Appointment).ID) := by
  decide

/-- C14, amended: ids assigned by the calendar are unique and strictly increasing as long
as the counter stays below the largest Go `int`. For records and a sequence of
`CreateAppointment` calls such that `latestID` after construction (the greatest of 0
and the ids of the records) plus the number of calls is below 9223372036854775807, in
the state reached: `latestID` is at least every stored id; a further successful
`CreateAppointment` appends an appointment whose id, `latestID + 1`, is strictly greater
than every stored id; and the stored list is the records followed by the created
appointments, whose ids are strictly increasing in order of creation (so no two of them
share an id) and greater than the id of every record. -/
theorem created_ids_unique_and_increasing (decoded requests : List Appointment)
    (hbound : (NewAppointmentManager decoded).latestID + (requests.length : Int) <
      9223372036854775807) :
    (∀ x ∈ (bookAll (NewAppointmentManager decoded) requests).appointmentsList,
      x.ID ≤ (bookAll (NewAppointmentManager decoded) requests).latestID) ∧
    (∀ r : Appointment,
      ((bookAll (NewAppointmentManager decoded) requests).CreateAppointment r).2 = none →
      ∃ y : Appointment,
        ((bookAll (NewAppointmentManager decoded) requests).CreateAppointment
            r).1.appointmentsList =
          (bookAll (NewAppointmentManager decoded) requests).appointmentsList ++ [y] ∧
        y.ID = (bookAll (NewAppointmentManager decoded) requests).latestID + 1 ∧
        ∀ x ∈ (bookAll (NewAppointmentManager decoded) requests).appointmentsList,
          x.ID < y.ID) ∧
    (∃ created : List Appointment,
      (bookAll (NewAppointmentManager decoded) requests).appointmentsList =
        decoded ++ created ∧
      created.Pairwise (fun x y => x.ID < y.ID) ∧
      (created.map (fun x => x.ID)).Nodup ∧
      ∀ x ∈ decoded, ∀ y ∈ created, x.ID < y.ID) := by
  obtain ⟨created, k1, k2, k3, k4, k5, k6⟩ :=
    bookAll_ids decoded requests (NewAppointmentManager decoded) []
      (by simp [NewAppointmentManager_appointmentsList])
      List.Pairwise.nil
      (by simp)
      (by
        rw [NewAppointmentManager_appointmentsList]
        exact (NewAppointmentManager_latestID decoded).2.1)
      (NewAppointmentManager_latestID decoded).1
      (le_of_lt hbound)
  refine ⟨k4, ?_, created, k1, k2, ?_, k3⟩
  · intro r hr
    obtain ⟨-, -, -, -, heq⟩ := CreateAppointment_of_success _ r hr
    have hw : wrapInt64 ((bookAll (NewAppointmentManager decoded) requests).latestID + 1) =
        (bookAll (NewAppointmentManager decoded) requests).latestID + 1 :=
      wrapInt64_of_range _ (by omega) (by omega)
    rw [hw] at heq
    refine ⟨{ r with ID := (bookAll (NewAppointmentManager decoded) requests).latestID + 1 },
      by rw [heq], rfl, ?_⟩
    intro x hx
    have := k4 x hx
    show x.ID < (bookAll (NewAppointmentManager decoded) requests).latestID + 1
    omega
  · rw [List.Nodup, List.pairwise_map]
    exact k2.imp (fun h => ne_of_lt h)

/-- C14, amended, at a concrete input: from records with ids 7 and 3, two successful
bookings get the ids 8 and 9. -/
theorem created_ids_unique_and_increasing_witness :
    (NewAppointmentManager twoTrainerRecords).latestID +
        (([nineToHalfPast,
          { StartTime := clock 0 10 0 0, EndTime := clock 0 10 30 0,
            TrainerID := 2 }] : List Appointment).length : Int) < 9223372036854775807 ∧
    (bookAll (NewAppointmentManager twoTrainerRecords)
        [nineToHalfPast,
         { StartTime := clock 0 10 0 0, EndTime := clock 0 10 30 0, TrainerID := 2 }]).appointmentsList =
      twoTrainerRecords ++
        [{ nineToHalfPast with ID := 8 },
         { ID := 9, StartTime := clock 0 10 0 0, EndTime := clock 0 10 30 0, TrainerID := 2 }] ∧
    (∀ x ∈ (bookAll (NewAppointmentManager twoTrainerRecords)
        [nineToHalfPast,
         { StartTime := clock 0 10 0 0, EndTime := clock 0 10 30 0, TrainerID := 2 }]).appointmentsList,
      x.ID ≤ (bookAll (NewAppointmentManager twoTrainerRecords)
        [nineToHalfPast,
         { StartTime := clock 0 10 0 0, EndTime := clock 0 10 30 0, TrainerID := 2 }]).latestID) :=
  ⟨by decide, by decide,
    (created_ids_unique_and_increasing twoTrainerRecords
      [nineToHalfPast,
       { StartTime := clock 0 10 0 0, EndTime := clock 0 10 30 0, TrainerID := 2 }]
      (by decide)).1⟩

/-- C15 as stated fails: for a single record with id -5 the maximum id among the records
is -5, and `NewAppointmentManager` sets `latestID` to 0. -/
theorem NewAppointmentManager_latestID_counterexample :
    negativeIdRecords ≠ [] ∧
      (∃ x ∈ negativeIdRecords, x.ID = -5) ∧ (∀ x ∈ negativeIdRecords, x.ID ≤ -5) ∧
      (NewAppointmentManager negativeIdRecords).latestID = 0 ∧
      (NewAppointmentManager negativeIdRecords).latestID ≠ -5 := by
  decide

/-- C15, amended: `NewAppointmentManager` keeps the records as the stored list, in the same
order; a trainer id is known exactly when some record carries it; and `latestID` is the
greatest of 0 and the ids of the records: it is 0 when there is no record, and it is the
maximum id among the records whenever some record has a non-negative id. -/
theorem NewAppointmentManager_spec (decoded : List Appointment) :
    (NewAppointmentManager decoded).appointmentsList = decoded ∧
    (∀ t : Int, t ∈ (NewAppointmentManager decoded).TrainerIDs ↔
      ∃ x ∈ decoded, x.TrainerID = t) ∧
    0 ≤ (NewAppointmentManager decoded).latestID ∧
    (∀ x ∈ decoded, x.ID ≤ (NewAppointmentManager decoded).latestID) ∧
    ((NewAppointmentManager decoded).latestID = 0 ∨
      ∃ x ∈ decoded, x.ID = (NewAppointmentManager decoded).latestID) ∧
    (decoded = [] → (NewAppointmentManager decoded).latestID = 0) ∧
    ((∃ x ∈ decoded, 0 ≤ x.ID) →
      ∃ x ∈ decoded, x.ID = (NewAppointmentManager decoded).latestID ∧
        ∀ y ∈ decoded, y.ID ≤ x.ID) := by
  obtain ⟨h0, hub, hatt⟩ := NewAppointmentManager_latestID decoded
  refine ⟨NewAppointmentManager_appointmentsList decoded,
    mem_NewAppointmentManager_TrainerIDs decoded, h0, hub, hatt, ?_, ?_⟩
  · intro hnil
    rcases hatt with h | ⟨x, hx, -⟩
    · exact h
    · rw [hnil] at hx
      cases hx
  · rintro ⟨z, hz, hz0⟩
    rcases hatt with h | ⟨x, hx, hxe⟩
    · have hzle := hub z hz
      refine ⟨z, hz, by omega, ?_⟩
      intro y hy
      have := hub y hy
      omega
    · refine ⟨x, hx, hxe, ?_⟩
      intro y hy
      rw [hxe]
      exact hub y hy

/-- C15, amended, at a concrete input: records of trainers 2 and 1 with ids 7 and 3 give
`latestID = 7` and the trainer set of 1 and 2. -/
theorem NewAppointmentManager_spec_witness :
    (∃ x ∈ twoTrainerRecords, 0 ≤ x.ID) ∧
      (NewAppointmentManager twoTrainerRecords).appointmentsList = twoTrainerRecords ∧
      (NewAppointmentManager twoTrainerRecords).latestID = 7 ∧
      (1 : Int) ∈ (NewAppointmentManager twoTrainerRecords).TrainerIDs ∧
      (2 : Int) ∈ (NewAppointmentManager twoTrainerRecords).TrainerIDs ∧
      (3 : Int) ∉ (NewAppointmentManager twoTrainerRecords).TrainerIDs ∧
      (∃ x ∈ twoTrainerRecords, x.ID = (NewAppointmentManager twoTrainerRecords).latestID ∧
        ∀ y ∈ twoTrainerRecords, y.ID ≤ x.ID) :=
  ⟨by decide, (NewAppointmentManager_spec twoTrainerRecords).1, by decide, by decide,
    by decide, by decide,
    (NewAppointmentManager_spec twoTrainerRecords).2.2.2.2.2.2 (by decide)⟩

/-- C16: `CreateAppointment` keeps the booking invariants. If every stored appointment has
a known trainer, start and end minutes 0 or 30, start and end hours within 8 to 17 and
ends 30 minutes after its start, the same holds for every stored appointment after any
`CreateAppointment` call; and every appointment that `CreateAppointment` appends has
these properties. -/
theorem CreateAppointment_keeps_booking_invariants (a : scheduledAppointments)
    (r : Appointment) :
    ((∀ x ∈ a.appointmentsList, wellFormedBooking a.TrainerIDs x) →
      ∀ x ∈ (a.CreateAppointment r).1.appointmentsList,
        wellFormedBooking (a.CreateAppointment r).1.TrainerIDs x) ∧
    ((a.CreateAppointment r).2 = none →
      (a.CreateAppointment r).1.appointmentsList =
          a.appointmentsList ++ [{ r with ID := wrapInt64 (a.latestID + 1) }] ∧
        wellFormedBooking (a.CreateAppointment r).1.TrainerIDs
          { r with ID := wrapInt64 (a.latestID + 1) }) := by
  have hnew : (a.CreateAppointment r).2 = none →
      (a.CreateAppointment r).1.appointmentsList =
          a.appointmentsList ++ [{ r with ID := wrapInt64 (a.latestID + 1) }] ∧
        (a.CreateAppointment r).1.TrainerIDs = a.TrainerIDs ∧
        wellFormedBooking a.TrainerIDs { r with ID := wrapInt64 (a.latestID + 1) } := by
    intro h
    obtain ⟨hT, hV, hD, -, heq⟩ := CreateAppointment_of_success a r h
    rw [validate_eq_none_iff, Minute_mod_thirty_iff, Minute_mod_thirty_iff] at hV
    rw [Sub_eq_thirtyMinutes_iff] at hD
    obtain ⟨h1, h2, -, h4, h5⟩ := hV
    refine ⟨by rw [heq], by rw [heq], hT, h1, h2, h4, h5, ?_⟩
    show r.EndTime = r.StartTime.Add thirtyMinutes
    cases hre : r.EndTime
    rw [hre] at hD
    simp only [Time.Add, Time.mk.injEq]
    exact hD
  constructor
  · intro hall x hx
    cases h : (a.CreateAppointment r).2 with
    | some e =>
      rw [(CreateAppointment_of_failure a r e h).1] at hx ⊢
      exact hall x hx
    | none =>
      obtain ⟨hl, ht, hw⟩ := hnew h
      rw [ht]
      rw [hl, List.mem_append, List.mem_singleton] at hx
      rcases hx with hx | hx
      · exact hall x hx
      · rw [hx]
        exact hw
  · intro h
    obtain ⟨hl, ht, hw⟩ := hnew h
    rw [ht]
    exact ⟨hl, hw⟩

/-- C16 at a concrete input: trainer 1 is booked 09:00 to 09:30, which satisfies the
invariants; booking 10:00 to 10:30 succeeds and the two stored appointments satisfy
them. -/
theorem CreateAppointment_keeps_booking_invariants_witness :
    (∀ x ∈ bookedNine.appointmentsList, wellFormedBooking bookedNine.TrainerIDs x) ∧
      (bookedNine.CreateAppointment
        { StartTime := clock 0 10 0 0, EndTime := clock 0 10 30 0, TrainerID := 1 }).2 = none ∧
      (∀ x ∈ (bookedNine.CreateAppointment
          { StartTime := clock 0 10 0 0, EndTime := clock 0 10 30 0,
            TrainerID := 1 }).1.appointmentsList,
        wellFormedBooking (bookedNine.CreateAppointment
          { StartTime := clock 0 10 0 0, EndTime := clock 0 10 30 0,
            TrainerID := 1 }).1.TrainerIDs x) ∧
      wellFormedBooking (bookedNine.CreateAppointment
          { StartTime := clock 0 10 0 0, EndTime := clock 0 10 30 0,
            TrainerID := 1 }).1.TrainerIDs
        { ID := 2, StartTime := clock 0 10 0 0, EndTime := clock 0 10 30 0, TrainerID := 1 } :=
  ⟨by decide, by decide,
    (CreateAppointment_keeps_booking_invariants bookedNine
      { StartTime := clock 0 10 0 0, EndTime := clock 0 10 30 0, TrainerID := 1 }).1
      (by decide),
    ((CreateAppointment_keeps_booking_invariants bookedNine
      { StartTime := clock 0 10 0 0, EndTime := clock 0 10 30 0, TrainerID := 1 }).2
      (by decide)).2⟩

/-- C17 as stated fails: for the known trainer 1 the request 17:00 to 17:30 of day zero is
accepted and stored, and the stored appointment ends at 17:30, after 17:00 of its day.
Its start and end hours are both 17, which the hour check allows. -/
theorem CreateAppointment_business_window_counterexample :
    fiveToHalfPastFive.TrainerID ∈ onlyTrainerOne.TrainerIDs ∧
      (onlyTrainerOne.CreateAppointment fiveToHalfPastFive).2 = none ∧
      (onlyTrainerOne.CreateAppointment fiveToHalfPastFive).1.appointmentsList =
        [{ fiveToHalfPastFive with ID := 1 }] ∧
      (clock 0 8 0 0).nanos ≤ fiveToHalfPastFive.StartTime.nanos ∧
      ¬ fiveToHalfPastFive.EndTime.nanos ≤ (clock 0 17 0 0).nanos ∧
      fiveToHalfPastFive.EndTime.Hour = 17 ∧ fiveToHalfPastFive.EndTime.Minute = 30 := by
  decide

/-- C17, amended: every appointment that `CreateAppointment` accepts has its start hour and
its end hour within 8 to 17. It starts at or after 08:00 of its day and ends on the same
day, 30 minutes after its start and before 17:31; when it starts exactly on the hour or
half hour it ends at or before 17:30. -/
theorem CreateAppointment_business_window (a : scheduledAppointments) (r : Appointment)
    (h : (a.CreateAppointment r).2 = none) :
    (8 ≤ r.StartTime.Hour ∧ r.StartTime.Hour ≤ 17) ∧
    (8 ≤ r.EndTime.Hour ∧ r.EndTime.Hour ≤ 17) ∧
    (clock (dayOf r.StartTime) 8 0 0).nanos ≤ r.StartTime.nanos ∧
    dayOf r.EndTime = dayOf r.StartTime ∧
    r.EndTime.nanos = r.StartTime.nanos + thirtyMinutes ∧
    r.EndTime.nanos < (clock (dayOf r.StartTime) 17 31 0).nanos ∧
    (onHalfHour r.StartTime → r.EndTime.nanos ≤ (clock (dayOf r.StartTime) 17 30 0).nanos) := by
  obtain ⟨-, hV, hD, -, -⟩ := CreateAppointment_of_success a r h
  rw [validate_eq_none_iff] at hV
  rw [Sub_eq_thirtyMinutes_iff] at hD
  obtain ⟨hm1, hm2, -, hs, he⟩ := hV
  refine ⟨hs, he, ?_, ?_, hD, ?_, ?_⟩
  · simp only [Time.Hour, clock, dayOf] at *
    omega
  · simp only [Time.Hour, Time.Minute, dayOf, thirtyMinutes_eq] at *
    omega
  · simp only [Time.Hour, Time.Minute, clock, dayOf, thirtyMinutes_eq] at *
    omega
  · intro hal
    simp only [Time.Hour, Time.Minute, clock, dayOf, onHalfHour, thirtyMinutes_eq] at *
    omega

/-- C17, amended, at a concrete input: the accepted booking 17:00 to 17:30 of day zero
starts after 08:00, has hours 17 and 17 and ends at 17:30. -/
theorem CreateAppointment_business_window_witness :
    (onlyTrainerOne.CreateAppointment fiveToHalfPastFive).2 = none ∧
      onHalfHour fiveToHalfPastFive.StartTime ∧
      (8 ≤ fiveToHalfPastFive.EndTime.Hour ∧ fiveToHalfPastFive.EndTime.Hour ≤ 17) ∧
      (clock 0 8 0 0).nanos ≤ fiveToHalfPastFive.StartTime.nanos ∧
      fiveToHalfPastFive.EndTime.nanos ≤ (clock 0 17 30 0).nanos :=
  ⟨by decide, by decide,
    (CreateAppointment_business_window onlyTrainerOne fiveToHalfPastFive (by decide)).2.1,
    (CreateAppointment_business_window onlyTrainerOne fiveToHalfPastFive (by decide)).2.2.1,
    (CreateAppointment_business_window onlyTrainerOne fiveToHalfPastFive
      (by decide)).2.2.2.2.2.2 (by decide)⟩

/-- C18 as stated fails. For the known trainer 1 and nothing booked, the window 17:00 of
day zero to 08:00 of day one passes validation and the slot starting 18:00 of day zero
is returned: its start hour is 18. The window 17:30:00 to 17:30:30 of day zero also
passes and returns the slot 17:30 to 18:00, whose end hour is 18. -/
theorem GetAvailableAppointments_slot_hours_counterexample :
    (∃ slots : List Appointment,
      onlyTrainerOne.GetAvailableAppointments
          { StartTime := clock 0 17 0 0, EndTime := clock 1 8 0 0, TrainerID := 1 } =
        .ok slots ∧
      slotAt 1 (clock 0 18 0 0) ∈ slots ∧
      ¬ (slotAt 1 (clock 0 18 0 0)).StartTime.Hour ≤ 17) ∧
    (∃ slots : List Appointment,
      onlyTrainerOne.GetAvailableAppointments
          { StartTime := clock 0 17 30 0, EndTime := clock 0 17 30 30, TrainerID := 1 } =
        .ok slots ∧
      slotAt 1 (clock 0 17 30 0) ∈ slots ∧
      ¬ (slotAt 1 (clock 0 17 30 0)).EndTime.Hour ≤ 17) := by
  constructor
  · refine ⟨_, GetAvailableAppointments_eq _ _ (by decide) (by decide), ?_, by decide⟩
    rw [mem_freeSlots]
    exact ⟨2, by decide, by decide, by decide⟩
  · refine ⟨_, GetAvailableAppointments_eq _ _ (by decide) (by decide), ?_, by decide⟩
    rw [mem_freeSlots]
    exact ⟨0, by decide, by decide, by decide⟩

/-- C18, amended: on every request on which `GetAvailableAppointments` succeeds, each
returned slot belongs to the requested trainer, ends 30 minutes after its start and has
start and end minutes equal to 0 or 30. When the window starts and ends on the same
day, the start hour of each returned slot is within 8 to 17; when in addition the
length of the window is a whole number of 30-minute steps, the end hour of each
returned slot is within 8 to 17 too. -/
theorem GetAvailableAppointments_slots_well_formed (a : scheduledAppointments)
    (r : Appointment) (slots : List Appointment)
    (h : a.GetAvailableAppointments r = .ok slots) :
    (∀ x ∈ slots,
      x.TrainerID = r.TrainerID ∧ x.EndTime = x.StartTime.Add thirtyMinutes ∧
        (x.StartTime.Minute = 0 ∨ x.StartTime.Minute = 30) ∧
        (x.EndTime.Minute = 0 ∨ x.EndTime.Minute = 30)) ∧
    (dayOf r.StartTime = dayOf r.EndTime →
      ∀ x ∈ slots, 8 ≤ x.StartTime.Hour ∧ x.StartTime.Hour ≤ 17) ∧
    (dayOf r.StartTime = dayOf r.EndTime →
      (r.EndTime.nanos - r.StartTime.nanos) % thirtyMinutes = 0 →
      ∀ x ∈ slots, 8 ≤ x.EndTime.Hour ∧ x.EndTime.Hour ≤ 17) := by
  obtain ⟨-, hV, rfl⟩ := GetAvailableAppointments_of_ok a r slots h
  rw [validate_eq_none_iff] at hV
  obtain ⟨hm, -, -, ⟨hs8, -⟩, ⟨-, he17⟩⟩ := hV
  refine ⟨?_, ?_, ?_⟩
  · intro x hx
    obtain ⟨k, rfl, -, -⟩ := (mem_freeSlots a r x).1 hx
    obtain ⟨m1, m2⟩ := Minute_add_steps r.StartTime k hm
    rw [Minute_mod_thirty_iff] at m1 m2
    exact ⟨rfl, rfl, m1, m2⟩
  · intro hday x hx
    obtain ⟨k, rfl, hk, -⟩ := (mem_freeSlots a r x).1 hx
    refine Hour_of_same_day r.StartTime r.EndTime _ hday ?_ (le_of_lt hk) hs8 he17
    simp only [slotAt, Time.Add, thirtyMinutes_eq]
    omega
  · intro hday hlen x hx
    obtain ⟨k, rfl, hk, -⟩ := (mem_freeSlots a r x).1 hx
    refine Hour_of_same_day r.StartTime r.EndTime _ hday ?_ ?_ hs8 he17
    · simp only [slotAt, Time.Add, thirtyMinutes_eq]
      omega
    · simp only [slotAt, Time.Add, thirtyMinutes_eq] at hk hlen ⊢
      omega

/-- C18, amended, at the scenario of the specification: trainer 1 is booked 09:00 to
09:30 and the window is 09:00 to 11:00 of day zero; the three returned slots have hours
within 8 to 17 and minutes 0 or 30. -/
theorem GetAvailableAppointments_slots_well_formed_witness :
    bookedNine.GetAvailableAppointments
        { StartTime := clock 0 9 0 0, EndTime := clock 0 11 0 0, TrainerID := 1 } =
      .ok [slotAt 1 (clock 0 9 30 0), slotAt 1 (clock 0 10 0 0), slotAt 1 (clock 0 10 30 0)] ∧
    dayOf (clock 0 9 0 0) = dayOf (clock 0 11 0 0) ∧
    ((clock 0 11 0 0).nanos - (clock 0 9 0 0).nanos) % thirtyMinutes = 0 ∧
    (∀ x ∈ [slotAt 1 (clock 0 9 30 0), slotAt 1 (clock 0 10 0 0), slotAt 1 (clock 0 10 30 0)],
      (8 ≤ x.StartTime.Hour ∧ x.StartTime.Hour ≤ 17) ∧
      (8 ≤ x.EndTime.Hour ∧ x.EndTime.Hour ≤ 17) ∧
      (x.StartTime.Minute = 0 ∨ x.StartTime.Minute = 30) ∧
      (x.EndTime.Minute = 0 ∨ x.EndTime.Minute = 30)) := by
  have hok : bookedNine.GetAvailableAppointments
        { StartTime := clock 0 9 0 0, EndTime := clock 0 11 0 0, TrainerID := 1 } =
      .ok [slotAt 1 (clock 0 9 30 0), slotAt 1 (clock 0 10 0 0),
        slotAt 1 (clock 0 10 30 0)] := by
    rw [GetAvailableAppointments_eq _ _ (by decide) (by decide)]
    exact congrArg Except.ok (by decide)
  obtain ⟨h1, h2, h3⟩ := GetAvailableAppointments_slots_well_formed bookedNine _ _ hok
  refine ⟨hok, by decide, by decide, ?_⟩
  intro x hx
  exact ⟨h2 (by decide) x hx, h3 (by decide) (by decide) x hx, (h1 x hx).2.2.1,
    (h1 x hx).2.2.2⟩

/-- C19: trainers are isolated from each other. If two calendar states have the same
trainer set and the same subsequence of stored appointments of trainer `T`, then
`GetAvailableAppointments` for any request of trainer `T` and
`GetScheduledAppointments` for `T` return the same result in both states. -/
theorem trainers_are_isolated (a b : scheduledAppointments) (T : Int)
    (hSet : a.TrainerIDs = b.TrainerIDs)
    (hSub : a.appointmentsList.filter (fun app => decide (app.TrainerID = T)) =
      b.appointmentsList.filter (fun app => decide (app.TrainerID = T))) :
    (∀ r : Appointment, r.TrainerID = T →
      a.GetAvailableAppointments r = b.GetAvailableAppointments r) ∧
    a.GetScheduledAppointments T = b.GetScheduledAppointments T := by
  constructor
  · intro r hr
    have hrel : (a.getRelevantAppointments r).1 = (b.getRelevantAppointments r).1 := by
      have key : ∀ l : List Appointment,
          l.filter (fun scheduledApp =>
            decide (scheduledApp.TrainerID = r.TrainerID)
              && scheduledApp.StartTime.Before r.EndTime
              && scheduledApp.EndTime.After r.StartTime) =
          (l.filter (fun app => decide (app.TrainerID = T))).filter
            (fun scheduledApp =>
              scheduledApp.StartTime.Before r.EndTime
                && scheduledApp.EndTime.After r.StartTime) := by
        intro l
        rw [List.filter_filter]
        congr 1
        funext x
        rw [hr]
        cases decide (x.TrainerID = T) <;> simp
      simp only [scheduledAppointments.getRelevantAppointments]
      rw [key a.appointmentsList, key b.appointmentsList, hSub]
    simp only [scheduledAppointments.getRelevantAppointments] at hrel
    simp only [scheduledAppointments.GetAvailableAppointments,
      scheduledAppointments.getRelevantAppointments, hSet, hrel]
  · simp only [scheduledAppointments.GetScheduledAppointments, hSet, hSub]

/-- C19 at the input of the test `TestGetAvailableAppointments_Available_DifferentTrainer`:
an appointment stored for trainer 1 at 09:00 to 09:30 leaves the 09:00 to 09:30 slot of
trainer 2 available, as in the calendar that stores nothing. -/
theorem trainers_are_isolated_witness :
    otherTrainerNine.TrainerIDs = onlyTrainerTwo.TrainerIDs ∧
      otherTrainerNine.appointmentsList.filter (fun app => decide (app.TrainerID = 2)) =
        onlyTrainerTwo.appointmentsList.filter (fun app => decide (app.TrainerID = 2)) ∧
      otherTrainerNine.GetAvailableAppointments
          { StartTime := clock 0 9 0 0, EndTime := clock 0 9 30 0, TrainerID := 2 } =
        onlyTrainerTwo.GetAvailableAppointments
          { StartTime := clock 0 9 0 0, EndTime := clock 0 9 30 0, TrainerID := 2 } ∧
      otherTrainerNine.GetAvailableAppointments
          { StartTime := clock 0 9 0 0, EndTime := clock 0 9 30 0, TrainerID := 2 } =
        .ok [{ ID := 0, StartTime := clock 0 9 0 0, EndTime := clock 0 9 30 0, UserID := 0,
               TrainerID := 2 }] := by
  have hiso := (trainers_are_isolated otherTrainerNine onlyTrainerTwo 2 (by decide)
    (by decide)).1 { StartTime := clock 0 9 0 0, EndTime := clock 0 9 30 0, TrainerID := 2 } rfl
  refine ⟨by decide, by decide, hiso, ?_⟩
  rw [GetAvailableAppointments_eq _ _ (by decide) (by decide)]
  exact congrArg Except.ok (by decide)


/-- C20: the queries are read-only and deterministic. Run as programs on the receiver,
`GetAvailableAppointments` and `GetScheduledAppointments` return what they compute from
the state before the call and leave the appointment list, `latestID` and the trainer
set as they were, and so does any sequence of such calls. Hence calling
`GetAvailableAppointments` twice with the same request, with any sequence of queries
and no `CreateAppointment` in between, yields twice the same result. -/
theorem queries_are_read_only (a : scheduledAppointments) (request : Appointment)
    (trainerID : Int) (between : List Query) :
    ((GetAvailableAppointmentsM request).run a = (a.GetAvailableAppointments request, a) ∧
      ((GetAvailableAppointmentsM request).run a).2.appointmentsList = a.appointmentsList ∧
      ((GetAvailableAppointmentsM request).run a).2.latestID = a.latestID ∧
      ((GetAvailableAppointmentsM request).run a).2.TrainerIDs = a.TrainerIDs) ∧
    ((GetScheduledAppointmentsM trainerID).run a = (a.GetScheduledAppointments trainerID, a) ∧
      ((GetScheduledAppointmentsM trainerID).run a).2.appointmentsList = a.appointmentsList ∧
      ((GetScheduledAppointmentsM trainerID).run a).2.latestID = a.latestID ∧
      ((GetScheduledAppointmentsM trainerID).run a).2.TrainerIDs = a.TrainerIDs) ∧
    ((runQueriesM between).run a).2 = a ∧
    ((queryTwiceM request between).run a).1.1 = ((queryTwiceM request between).run a).1.2 ∧
    ((queryTwiceM request between).run a).1.1 = a.GetAvailableAppointments request ∧
    ((queryTwiceM request between).run a).2 = a := by
  have hA : ∀ (r : Appointment) (s : scheduledAppointments),
      (GetAvailableAppointmentsM r).run s = (s.GetAvailableAppointments r, s) := by
    intro r s
    simp only [GetAvailableAppointmentsM, scheduledAppointments.GetAvailableAppointments,
      StateT.run_bind, StateT.run_get, Id.pure_eq, Id.bind_eq]
    by_cases hT : isValidTrainerID r.TrainerID s.TrainerIDs = true
    · simp only [hT, Bool.not_true, Bool.false_eq_true, if_false]
      cases hV : validateStartAndEndTime r.StartTime r.EndTime with
      | some err => rfl
      | none => rfl
    · simp only [hT, Bool.not_false, if_true]
      rfl
  have hS : ∀ (t : Int) (s : scheduledAppointments),
      (GetScheduledAppointmentsM t).run s = (s.GetScheduledAppointments t, s) := by
    intro t s
    simp only [GetScheduledAppointmentsM, scheduledAppointments.GetScheduledAppointments,
      StateT.run_bind, StateT.run_get, Id.pure_eq, Id.bind_eq]
    by_cases hT : isValidTrainerID t s.TrainerIDs = true
    · simp only [hT, Bool.not_true, Bool.false_eq_true, if_false]
      rfl
    · simp only [hT, Bool.not_false, if_true]
      rfl
  have hR : ∀ (qs : List Query) (s : scheduledAppointments),
      (runQueriesM qs).run s = ((), s) := by
    intro qs
    induction qs with
    | nil => intro s; rfl
    | cons q rest ih =>
      intro s
      cases q with
      | available r =>
        simp only [runQueriesM, StateT.run_bind, hA, Id.bind_eq]
        exact ih s
      | scheduled t =>
        simp only [runQueriesM, StateT.run_bind, hS, Id.bind_eq]
        exact ih s
  have hq : (queryTwiceM request between).run a =
      ((a.GetAvailableAppointments request, a.GetAvailableAppointments request), a) := by
    simp only [queryTwiceM, StateT.run_bind, hA, hR, Id.bind_eq]
    rfl
  rw [hq, hA, hS, hR]
  exact ⟨⟨rfl, rfl, rfl, rfl⟩, ⟨rfl, rfl, rfl, rfl⟩, rfl, rfl, rfl, rfl⟩

/-- C20 at a concrete input. Trainer 1 is booked 09:00 to 09:30. The availability query
for 09:00 to 11:00, the scheduled query of trainer 1 and the same availability query
again: both availability results are the slots 09:30, 10:00 and 10:30 and the state is
unchanged. With a booking of 10:00 to 10:30 in between instead, the second result
differs from the first. -/
theorem queries_are_read_only_witness :
    ((queryTwiceM { StartTime := clock 0 9 0 0, EndTime := clock 0 11 0 0, TrainerID := 1 }
        [.scheduled 1]).run bookedNine).1.1 =
      .ok [slotAt 1 (clock 0 9 30 0), slotAt 1 (clock 0 10 0 0), slotAt 1 (clock 0 10 30 0)] ∧
    ((queryTwiceM { StartTime := clock 0 9 0 0, EndTime := clock 0 11 0 0, TrainerID := 1 }
        [.scheduled 1]).run bookedNine).1.2 =
      .ok [slotAt 1 (clock 0 9 30 0), slotAt 1 (clock 0 10 0 0), slotAt 1 (clock 0 10 30 0)] ∧
    ((queryTwiceM { StartTime := clock 0 9 0 0, EndTime := clock 0 11 0 0, TrainerID := 1 }
        [.scheduled 1]).run bookedNine).2.appointmentsList = bookedNine.appointmentsList ∧
    ((queryBookQueryM { StartTime := clock 0 9 0 0, EndTime := clock 0 11 0 0, TrainerID := 1 }
        { StartTime := clock 0 10 0 0, EndTime := clock 0 10 30 0,
          TrainerID := 1 }).run bookedNine).1.2 =
      .ok [slotAt 1 (clock 0 9 30 0), slotAt 1 (clock 0 10 30 0)] := by
  have heval : bookedNine.GetAvailableAppointments
        { StartTime := clock 0 9 0 0, EndTime := clock 0 11 0 0, TrainerID := 1 } =
      .ok [slotAt 1 (clock 0 9 30 0), slotAt 1 (clock 0 10 0 0),
        slotAt 1 (clock 0 10 30 0)] := by
    rw [GetAvailableAppointments_eq _ _ (by decide) (by decide)]
    exact congrArg Except.ok (by decide)
  obtain ⟨-, -, -, hsame, hfirst, hstate⟩ :=
    queries_are_read_only bookedNine
      { StartTime := clock 0 9 0 0, EndTime := clock 0 11 0 0, TrainerID := 1 } 1
      [.scheduled 1]
  refine ⟨by rw [hfirst, heval], by rw [← hsame, hfirst, heval], by rw [hstate], ?_⟩
  have hA : ∀ s : scheduledAppointments,
      (GetAvailableAppointmentsM
          { StartTime := clock 0 9 0 0, EndTime := clock 0 11 0 0, TrainerID := 1 }).run s =
        (s.GetAvailableAppointments
          { StartTime := clock 0 9 0 0, EndTime := clock 0 11 0 0, TrainerID := 1 }, s) :=
    fun s => (queries_are_read_only s _ 1 []).1.1
  simp only [queryBookQueryM, StateT.run_bind, hA, CreateAppointmentM_run, Id.bind_eq]
  show (bookedNine.CreateAppointment
      { StartTime := clock 0 10 0 0, EndTime := clock 0 10 30 0,
        TrainerID := 1 }).1.GetAvailableAppointments
      { StartTime := clock 0 9 0 0, EndTime := clock 0 11 0 0, TrainerID := 1 } = _
  rw [GetAvailableAppointments_eq _ _ (by decide) (by decide)]
  exact congrArg Except.ok (by decide)

/-- C23: the alignment check looks only at the minute component. Trainer 1 is known and
has the appointment 09:00:00 to 09:30:00 stored. The request 09:00:30 to 09:30:30 for
trainer 1 has minutes 0 and 30 and seconds 30; it passes `validateStartAndEndTime` and
the 30-minute duration check, and `CreateAppointment` succeeds and stores it with id 2
next to the stored appointment. -/
theorem CreateAppointment_accepts_sub_minute_offsets :
    nineAndThirtySeconds.TrainerID ∈ bookedNine.TrainerIDs ∧
      (∃ x ∈ bookedNine.appointmentsList,
        x.TrainerID = nineAndThirtySeconds.TrainerID ∧ x.StartTime = clock 0 9 0 0 ∧
          x.EndTime = clock 0 9 30 0) ∧
      nineAndThirtySeconds.StartTime.Minute = 0 ∧ nineAndThirtySeconds.EndTime.Minute = 30 ∧
      nineAndThirtySeconds.StartTime.Second = 30 ∧ nineAndThirtySeconds.EndTime.Second = 30 ∧
      validateStartAndEndTime nineAndThirtySeconds.StartTime nineAndThirtySeconds.EndTime =
        none ∧
      nineAndThirtySeconds.EndTime.Sub nineAndThirtySeconds.StartTime = thirtyMinutes ∧
      (bookedNine.CreateAppointment nineAndThirtySeconds).2 = none ∧
      (bookedNine.CreateAppointment nineAndThirtySeconds).1.appointmentsList =
        bookedNine.appointmentsList ++ [{ nineAndThirtySeconds with ID := 2 }] := by
  decide

/-- C24: in every state reached from `NewAppointmentManager` on any records by any
sequence of `CreateAppointment` calls, every trainer id of the trainer set has at least
one stored appointment; hence `GetScheduledAppointments` either fails with
`UnknownTrainer` or returns a non-empty sequence, and never a successful empty one. -/
theorem known_trainers_have_appointments (decoded requests : List Appointment) :
    (∀ t ∈ (bookAll (NewAppointmentManager decoded) requests).TrainerIDs,
      ∃ x ∈ (bookAll (NewAppointmentManager decoded) requests).appointmentsList,
        x.TrainerID = t) ∧
    (∀ t : Int,
      (bookAll (NewAppointmentManager decoded) requests).GetScheduledAppointments t =
          .error (.UnknownTrainer (some t)) ∨
        ∃ scheduled : List Appointment, scheduled ≠ [] ∧
          (bookAll (NewAppointmentManager decoded) requests).GetScheduledAppointments t =
            .ok scheduled) ∧
    (∀ t : Int,
      (bookAll (NewAppointmentManager decoded) requests).GetScheduledAppointments t ≠
        .ok []) := by
  obtain ⟨hset, created, hlist⟩ := bookAll_frame requests (NewAppointmentManager decoded)
  rw [NewAppointmentManager_appointmentsList] at hlist
  have hstored : ∀ t ∈ (bookAll (NewAppointmentManager decoded) requests).TrainerIDs,
      ∃ x ∈ (bookAll (NewAppointmentManager decoded) requests).appointmentsList,
        x.TrainerID = t := by
    intro t ht
    rw [hset, mem_NewAppointmentManager_TrainerIDs] at ht
    obtain ⟨x, hx, hxt⟩ := ht
    exact ⟨x, by rw [hlist]; exact List.mem_append_left _ hx, hxt⟩
  have hcases : ∀ t : Int,
      (bookAll (NewAppointmentManager decoded) requests).GetScheduledAppointments t =
          .error (.UnknownTrainer (some t)) ∨
        ∃ scheduled : List Appointment, scheduled ≠ [] ∧
          (bookAll (NewAppointmentManager decoded) requests).GetScheduledAppointments t =
            .ok scheduled := by
    intro t
    by_cases ht : t ∈ (bookAll (NewAppointmentManager decoded) requests).TrainerIDs
    · right
      obtain ⟨x, hx, hxt⟩ := hstored t ht
      refine ⟨_, ?_, GetScheduledAppointments_eq _ t ht⟩
      intro hnil
      have hmem : x ∈ (bookAll (NewAppointmentManager decoded) requests).appointmentsList.filter
          (fun app => decide (app.TrainerID = t)) := by
        rw [List.mem_filter]
        exact ⟨hx, by simpa using hxt⟩
      rw [hnil] at hmem
      cases hmem
    · left
      simp [scheduledAppointments.GetScheduledAppointments, isValidTrainerID, ht]
  refine ⟨hstored, hcases, ?_⟩
  intro t hempty
  rcases hcases t with h | ⟨l, hl, h⟩
  · rw [h] at hempty
    cases hempty
  · rw [h] at hempty
    cases hempty
    exact hl rfl

/-- C24 at a concrete input: after loading records of trainers 2 and 1 and booking 09:00
to 09:30 for trainer 1, trainer 1 is known and has a stored appointment, and the
scheduled appointments of trainer 1 are not the empty sequence. -/
theorem known_trainers_have_appointments_witness :
    (1 : Int) ∈ (bookAll (NewAppointmentManager twoTrainerRecords) [nineToHalfPast]).TrainerIDs ∧
      (∃ x ∈ (bookAll (NewAppointmentManager twoTrainerRecords)
          [nineToHalfPast]).appointmentsList, x.TrainerID = 1) ∧
      (bookAll (NewAppointmentManager twoTrainerRecords)
          [nineToHalfPast]).GetScheduledAppointments 1 ≠ .ok [] :=
  ⟨by decide,
    (known_trainers_have_appointments twoTrainerRecords [nineToHalfPast]).1 1 (by decide),
    (known_trainers_have_appointments twoTrainerRecords [nineToHalfPast]).2.2 1⟩

/-- C25: `GetAvailableAppointments` is total. The slot walk terminates: each iteration
`t < EndTime` lowers the number of remaining steps `stepCount t EndTime` by one, and
`stepCount StartTime EndTime` is the number of 30-minute steps
`t = StartTime + k * 30min` with `t < EndTime`. For every state and request the
operation returns an error (unknown trainer, or the error of the window validation) or
a sequence; for a known trainer and a window that passes validation the number of
returned slots is at most the number of steps, with equality when no stored appointment
of that trainer starts at any of the steps. -/
theorem GetAvailableAppointments_total (a : scheduledAppointments) (r : Appointment) :
    (∀ t : Time, t.Before r.EndTime = true →
      stepCount (t.Add thirtyMinutes) r.EndTime + 1 = stepCount t r.EndTime) ∧
    (∀ k : Nat, k < stepCount r.StartTime r.EndTime ↔
      (r.StartTime.Add ((k : Int) * thirtyMinutes)).nanos < r.EndTime.nanos) ∧
    (r.TrainerID ∉ a.TrainerIDs →
      a.GetAvailableAppointments r = .error (.UnknownTrainer none)) ∧
    (r.TrainerID ∈ a.TrainerIDs →
      ∀ e : Error, validateStartAndEndTime r.StartTime r.EndTime = some e →
        a.GetAvailableAppointments r = .error e) ∧
    (r.TrainerID ∈ a.TrainerIDs →
      validateStartAndEndTime r.StartTime r.EndTime = none →
      ∃ slots : List Appointment,
        a.GetAvailableAppointments r = .ok slots ∧
        slots.length ≤ stepCount r.StartTime r.EndTime ∧
        ((∀ g ∈ a.appointmentsList, g.TrainerID = r.TrainerID →
            ∀ k : Nat,
              (r.StartTime.Add ((k : Int) * thirtyMinutes)).nanos < r.EndTime.nanos →
              g.StartTime ≠ r.StartTime.Add ((k : Int) * thirtyMinutes)) →
          slots.length = stepCount r.StartTime r.EndTime)) := by
  refine ⟨?_, ?_, ?_, ?_, ?_⟩
  · intro t ht
    have hlt : t.nanos < r.EndTime.nanos := by simpa [Time.Before] using ht
    rw [stepCount_of_before t r.EndTime hlt]
  · intro k
    rw [lt_stepCount_iff]
    rfl
  · intro hT
    simp [scheduledAppointments.GetAvailableAppointments, isValidTrainerID, hT]
  · intro hT e hV
    simp [scheduledAppointments.GetAvailableAppointments, isValidTrainerID, hT, hV]
  · intro hT hV
    have hlen : (boundaries r.StartTime r.EndTime).length = stepCount r.StartTime r.EndTime := by
      simp [boundaries]
    refine ⟨_, GetAvailableAppointments_eq a r hT hV, ?_, ?_⟩
    · rw [List.length_map, ← hlen]
      exact List.length_filter_le _ _
    · intro hfree
      rw [List.length_map, ← hlen]
      congr 1
      rw [List.filter_eq_self]
      intro u hu
      rw [isSlotAvailable_iff]
      intro g hg
      rw [mem_getRelevantAppointments] at hg
      obtain ⟨k, rfl, hk⟩ := (mem_boundaries _ _ _).1 hu
      exact hfree g hg.1 hg.2.1 k hk

/-- C25 at concrete inputs, for the window 09:00 to 11:00 of trainer 1, which has four
steps: with 09:00 booked three slots are returned, and with nothing booked four. -/
theorem GetAvailableAppointments_total_witness :
    stepCount (clock 0 9 0 0) (clock 0 11 0 0) = 4 ∧
    (∃ slots : List Appointment,
      bookedNine.GetAvailableAppointments
          { StartTime := clock 0 9 0 0, EndTime := clock 0 11 0 0, TrainerID := 1 } =
        .ok slots ∧ slots.length ≤ 4) ∧
    (∃ slots : List Appointment,
      onlyTrainerOne.GetAvailableAppointments
          { StartTime := clock 0 9 0 0, EndTime := clock 0 11 0 0, TrainerID := 1 } =
        .ok slots ∧ slots.length = 4) := by
  have hcount : stepCount (clock 0 9 0 0) (clock 0 11 0 0) = 4 := by decide
  refine ⟨hcount, ?_, ?_⟩
  · obtain ⟨slots, hok, hle, -⟩ :=
      (GetAvailableAppointments_total bookedNine
        { StartTime := clock 0 9 0 0, EndTime := clock 0 11 0 0, TrainerID := 1 }).2.2.2.2
        (by decide) (by decide)
    exact ⟨slots, hok, by rw [← hcount]; exact hle⟩
  · obtain ⟨slots, hok, -, heq⟩ :=
      (GetAvailableAppointments_total onlyTrainerOne
        { StartTime := clock 0 9 0 0, EndTime := clock 0 11 0 0, TrainerID := 1 }).2.2.2.2
        (by decide) (by decide)
    refine ⟨slots, hok, ?_⟩
    rw [← hcount]
    exact heq (fun g hg => by cases hg)

/-- C22: a booking removes exactly its own slot from availability. When
`CreateAppointment` succeeds on `a` in state `s`, then for every request `r` the query
`GetAvailableAppointments` in the resulting state fails exactly when it fails in `s`,
with the same error; and when it succeeds in `s` with `slots`, it succeeds in the
resulting state with `slots` without the slots that start at the start of `a` if `r` is
for the trainer of `a`, and with `slots` unchanged if `r` is for another trainer. -/
theorem booking_removes_exactly_its_slot (s : scheduledAppointments) (a r : Appointment)
    (h : (s.CreateAppointment a).2 = none) :
    (∀ e : Error,
      (s.CreateAppointment a).1.GetAvailableAppointments r = .error e ↔
        s.GetAvailableAppointments r = .error e) ∧
    (∀ slots : List Appointment,
      s.GetAvailableAppointments r = .ok slots →
      (s.CreateAppointment a).1.GetAvailableAppointments r =
        .ok (if r.TrainerID = a.TrainerID then
              slots.filter (fun y => !(y.StartTime.Equal a.StartTime))
            else slots)) := by
  obtain ⟨-, -, hD, -, heq⟩ := CreateAppointment_of_success s a h
  rw [Sub_eq_thirtyMinutes_iff] at hD
  rw [heq]
  by_cases hT : r.TrainerID ∈ s.TrainerIDs
  · cases hV : validateStartAndEndTime r.StartTime r.EndTime with
    | some e0 =>
      constructor
      · intro e
        simp [scheduledAppointments.GetAvailableAppointments, isValidTrainerID, hT, hV]
      · intro slots hs
        simp [scheduledAppointments.GetAvailableAppointments, isValidTrainerID, hT, hV] at hs
    | none =>
      have hnew := GetAvailableAppointments_eq
        { s with
          latestID := wrapInt64 (s.latestID + 1)
          appointmentsList := s.appointmentsList ++ [{ a with ID := wrapInt64 (s.latestID + 1) }] }
        r hT hV
      have hfree := freeSlots_after_append s (wrapInt64 (s.latestID + 1)) { a with ID := wrapInt64 (s.latestID + 1) } r hD
      constructor
      · intro e
        rw [hnew, GetAvailableAppointments_eq s r hT hV]
        constructor <;> intro hc <;> cases hc
      · intro slots hs
        rw [GetAvailableAppointments_eq s r hT hV] at hs
        cases hs
        rw [hnew, hfree]
  · constructor
    · intro e
      simp [scheduledAppointments.GetAvailableAppointments, isValidTrainerID, hT]
    · intro slots hs
      simp [scheduledAppointments.GetAvailableAppointments, isValidTrainerID, hT] at hs

/-- C22 at a concrete input: in the calendar with nothing booked the window 09:00 to 11:00
of trainer 1 has the four slots 09:00, 09:30, 10:00 and 10:30; after booking 09:00 to
09:30 for trainer 1 the same query returns the three slots 09:30, 10:00 and 10:30. -/
theorem booking_removes_exactly_its_slot_witness :
    (onlyTrainerOne.CreateAppointment nineToHalfPast).2 = none ∧
      onlyTrainerOne.GetAvailableAppointments
          { StartTime := clock 0 9 0 0, EndTime := clock 0 11 0 0, TrainerID := 1 } =
        .ok [slotAt 1 (clock 0 9 0 0), slotAt 1 (clock 0 9 30 0), slotAt 1 (clock 0 10 0 0),
          slotAt 1 (clock 0 10 30 0)] ∧
      (onlyTrainerOne.CreateAppointment nineToHalfPast).1.GetAvailableAppointments
          { StartTime := clock 0 9 0 0, EndTime := clock 0 11 0 0, TrainerID := 1 } =
        .ok [slotAt 1 (clock 0 9 30 0), slotAt 1 (clock 0 10 0 0),
          slotAt 1 (clock 0 10 30 0)] := by
  have hbefore : onlyTrainerOne.GetAvailableAppointments
        { StartTime := clock 0 9 0 0, EndTime := clock 0 11 0 0, TrainerID := 1 } =
      .ok [slotAt 1 (clock 0 9 0 0), slotAt 1 (clock 0 9 30 0), slotAt 1 (clock 0 10 0 0),
        slotAt 1 (clock 0 10 30 0)] := by
    rw [GetAvailableAppointments_eq _ _ (by decide) (by decide)]
    exact congrArg Except.ok (by decide)
  refine ⟨by decide, hbefore, ?_⟩
  rw [(booking_removes_exactly_its_slot onlyTrainerOne nineToHalfPast
    { StartTime := clock 0 9 0 0, EndTime := clock 0 11 0 0, TrainerID := 1 }
    (by decide)).2 _ hbefore]
  exact congrArg Except.ok (by decide)

end appointment

namespace handlers

/-- C21 (on a manager error each handler returns an `*echo.HTTPError` with status 400),
evaluated at the failing inputs of the handler tests. With a manager whose operation
returns an error, each of the three handlers ends with `c.String(400, text)`: the
status 400 is written to the response, and the value the handler returns is the result
of that call, which is `nil` when the write succeeds and is never an `*echo.HTTPError`.
With a manager that succeeds, the handlers return no error and the response status is
200 for the two queries and 201 for the booking. -/
theorem handlers_return_no_HTTPError :
    (handleGetAvailableTimes testContext
        (failingManager "error getting available appointments") =
      some (.string 400 ("error getting available appointments: " ++
        "error getting available appointments")) ∧
    handleGetScheduledAppointments testContext
        (failingManager "error getting scheduled appointments") =
      some (.string 400 ("error getting scheduled appointments: " ++
        "error getting scheduled appointments")) ∧
    handlePostAppointment testContext (failingManager "error creating appointment") =
      some (.string 400 ("error creating appointment: " ++ "error creating appointment"))) ∧
    (∀ (s : String), (Reply.string 400 s).status = 400 ∧
      (Reply.string 400 s).returned none = none ∧
      ∀ (writeErr : Option String) (code : Int) (message : String),
        (Reply.string 400 s).returned writeErr ≠ some (.HTTPError code message)) ∧
    (∃ reply, handleGetAvailableTimes testContext workingManager = some reply ∧
      reply.status = 200 ∧ reply.returned none = none) ∧
    (∃ reply, handleGetScheduledAppointments testContext workingManager = some reply ∧
      reply.status = 200 ∧ reply.returned none = none) ∧
    (∃ reply, handlePostAppointment testContext workingManager = some reply ∧
      reply.status = 201 ∧ reply.returned none = none) := by
  refine ⟨⟨rfl, rfl, rfl⟩, ?_, ⟨_, rfl, rfl, rfl⟩, ⟨_, rfl, rfl, rfl⟩, ⟨_, rfl, rfl, rfl⟩⟩
  intro s
  refine ⟨rfl, rfl, ?_⟩
  intro writeErr code message
  cases writeErr <;> simp [Reply.returned]

end handlers
